import Mathlib

/-!
Shallow embedding of the cryptowatch real-time market-data client core:
the Kraken WebSocket connection service, the subscription manager
(multiplexer plus update throttle), the order-book formatting and merge
pipeline, and the two pair-symbol resolution functions.

JavaScript Map objects are modelled as association lists over String keys,
JavaScript Set objects as duplicate-free lists with insertion order, numeric
payload values as Nat identifiers, prices and amounts as rationals, and
callback closures as Nat identifiers allocated from a counter (reference
equality of closures becomes equality of identifiers).
-/

/-- Lookup in an association list, as a JavaScript Map get. -/
def alGet {β : Type} (k : String) : List (String × β) → Option β
  | [] => none
  | (k', v) :: rest => if k' = k then some v else alGet k rest

/-- Insert or replace in an association list, as a JavaScript Map set. -/
def alSet {β : Type} (k : String) (v : β) : List (String × β) → List (String × β)
  | [] => [(k, v)]
  | (k', v') :: rest => if k' = k then (k, v) :: rest else (k', v') :: alSet k v rest

/-- Remove a key from an association list, as a JavaScript Map delete. -/
def alDel {β : Type} (k : String) : List (String × β) → List (String × β)
  | [] => []
  | (k', v') :: rest => if k' = k then rest else (k', v') :: alDel k rest

/-- Add to a JavaScript Set: a no-op when the element is already present,
otherwise appended at the end (insertion order). -/
def setAdd (l : List Nat) (x : Nat) : List Nat :=
  if x ∈ l then l else l ++ [x]

/-- Delete from a JavaScript Set: removes the element when present. -/
def setDelete (l : List Nat) (x : Nat) : List Nat :=
  l.erase x

/-- Outbound wire messages built by the service: subscribe messages carry the
channel name, the pair array and the optional depth and interval parameters
of the subscription object; unsubscribe messages carry channel and pairs. -/
inductive WireMsg : Type
  | sub (channel : String) (pairs : List String)
      (depth : Option Nat) (interval : Option Nat)
  | unsub (channel : String) (pairs : List String)
deriving DecidableEq, Repr

/-- ConnectionState enum of KrakenWebSocketService. -/
inductive ConnectionState : Type
  | disconnected
  | connecting
  | connected
  | reconnecting
  | error
deriving DecidableEq, Repr

/-- State of the KrakenWebSocketService instance.  The socket field of the
source is split into existence (socket not null) and openness (readyState
OPEN); the pending reconnect timeout is a flag plus the delay it was armed
with; sentMessages logs every frame accepted by send. -/
structure ConnState : Type where
  socketExists : Bool
  socketOpen : Bool
  subscriptions : List (String × Nat)
  messageHandlers : List (String × List Nat)
  reconnectAttempts : Nat
  reconnectTimerActive : Bool
  scheduledDelay : Option ℚ
  heartbeatActive : Bool
  connectionState : ConnectionState
  sentMessages : List WireMsg
deriving DecidableEq, Repr

/-- maxReconnectAttempts field initial value. -/
def maxReconnectAttempts : Nat := 5

/-- reconnectDelay field initial value, in milliseconds. -/
def reconnectDelay : ℚ := 2000

/-- KrakenWebSocketService.send: fails when the socket is null or not in the
open state, otherwise transmits the serialized message. -/
def KrakenWebSocketService.send (s : ConnState) (m : WireMsg) : ConnState × Bool :=
  if ¬ s.socketExists then (s, false)
  else if ¬ s.socketOpen then (s, false)
  else ({ s with sentMessages := s.sentMessages ++ [m] }, true)

/-- The private generic subscription method: returns false when the socket is
null, otherwise delegates to send. -/
def KrakenWebSocketService.subscribeGeneric (s : ConnState) (m : WireMsg) :
    ConnState × Bool :=
  if ¬ s.socketExists then (s, false)
  else KrakenWebSocketService.send s m

/-- subscribeTicker. -/
def KrakenWebSocketService.subscribeTicker (s : ConnState) (pairs : List String) :
    ConnState × Bool :=
  KrakenWebSocketService.subscribeGeneric s (WireMsg.sub "ticker" pairs none none)

/-- subscribeOrderBook, with depth parameter defaulting to 10. -/
def KrakenWebSocketService.subscribeOrderBook (s : ConnState) (pairs : List String)
    (depth : Nat := 10) : ConnState × Bool :=
  KrakenWebSocketService.subscribeGeneric s (WireMsg.sub "book" pairs (some depth) none)

/-- subscribeTrades. -/
def KrakenWebSocketService.subscribeTrades (s : ConnState) (pairs : List String) :
    ConnState × Bool :=
  KrakenWebSocketService.subscribeGeneric s (WireMsg.sub "trade" pairs none none)

/-- The pair reformatting done inside subscribeOHLC: a pair already holding a
slash is kept, otherwise a pair of length at least six is split after the
third character. -/
def formatOhlcPair (pair : String) : String :=
  if (Char.ofNat 47) ∈ pair.data then pair
  else if 6 ≤ pair.data.length then
    String.mk (pair.data.take 3) ++ "/" ++ String.mk (pair.data.drop 3)
  else pair

/-- subscribeOHLC, with interval parameter defaulting to 1. -/
def KrakenWebSocketService.subscribeOHLC (s : ConnState) (pairs : List String)
    (interval : Nat := 1) : ConnState × Bool :=
  KrakenWebSocketService.subscribeGeneric s
    (WireMsg.sub "ohlc" (pairs.map formatOhlcPair) none (some interval))

/-- KrakenWebSocketService.unsubscribe. -/
def KrakenWebSocketService.unsubscribeChannel (s : ConnState) (channelName : String)
    (pairs : List String) : ConnState × Bool :=
  KrakenWebSocketService.send s (WireMsg.unsub channelName pairs)

/-- KrakenWebSocketService.on: appends the handler to the channel list. -/
def KrakenWebSocketService.on (s : ConnState) (channelName : String) (h : Nat) :
    ConnState :=
  let handlers := (alGet channelName s.messageHandlers).getD []
  { s with messageHandlers := alSet channelName (handlers ++ [h]) s.messageHandlers }

/-- KrakenWebSocketService.off: removes the handler only when indexOf finds it,
that is, only under reference equality with a registered handler. -/
def KrakenWebSocketService.off (s : ConnState) (channelName : String) (h : Nat) :
    ConnState :=
  let handlers := (alGet channelName s.messageHandlers).getD []
  if h ∈ handlers then
    { s with messageHandlers := alSet channelName (handlers.erase h) s.messageHandlers }
  else s

/-- KrakenWebSocketService.disconnect: cancels the heartbeat, cancels any
pending reconnect timer, closes and drops the socket with auto-reconnect
disabled, and clears the subscription bookkeeping.  It does not write the
connectionState field. -/
def KrakenWebSocketService.disconnect (s : ConnState) : ConnState :=
  { s with heartbeatActive := false
         , reconnectTimerActive := false
         , scheduledDelay := none
         , socketExists := false
         , socketOpen := false
         , subscriptions := [] }

/-- KrakenWebSocketService.getConnectionState. -/
def KrakenWebSocketService.getConnectionState (s : ConnState) : ConnectionState :=
  s.connectionState

/-- KrakenWebSocketService.handleReconnect: clears any pending reconnect timer;
below the attempt maximum it increments the count, enters the reconnecting
state and arms a timer with delay reconnectDelay times 1.5 to the power of
(attempts - 1); at the maximum it enters the error state and arms nothing. -/
def KrakenWebSocketService.handleReconnect (s : ConnState) : ConnState :=
  let s1 := { s with reconnectTimerActive := false, scheduledDelay := none }
  if s1.reconnectAttempts < maxReconnectAttempts then
    let attempts' := s1.reconnectAttempts + 1
    { s1 with reconnectAttempts := attempts'
            , connectionState := ConnectionState.reconnecting
            , reconnectTimerActive := true
            , scheduledDelay := some (reconnectDelay * (3 / 2 : ℚ) ^ (attempts' - 1)) }
  else
    { s1 with connectionState := ConnectionState.error }

/-- The socket onclose handler for an unexpected close: clears the heartbeat,
records the disconnected state and the closed socket, then runs
handleReconnect. -/
def KrakenWebSocketService.onUnexpectedClose (s : ConnState) : ConnState :=
  KrakenWebSocketService.handleReconnect
    { s with heartbeatActive := false
           , socketOpen := false
           , connectionState := ConnectionState.disconnected }

/-- Iterate the unexpected-close handler. -/
def applyCloses : Nat → ConnState → ConnState
  | 0, s => s
  | n + 1, s => applyCloses n (KrakenWebSocketService.onUnexpectedClose s)

/-- Split a character list at every occurrence of the separator, as the
JavaScript string split does. -/
def splitSegs (sep : Char) : List Char → List (List Char)
  | [] => [[]]
  | c :: rest =>
    let segs := splitSegs sep rest
    if c = sep then [] :: segs
    else
      match segs with
      | [] => [[c]]
      | seg :: more => (c :: seg) :: more

/-- Split a subscription key at the colon, as the destructured result of the
JavaScript split on the key string: the first two segments. -/
def splitKey (k : String) : String × String :=
  let parts := (splitSegs (Char.ofNat 58) k.data).map String.mk
  (parts.getD 0 "", parts.getD 1 "")

/-- One step of the resubscription replay: dispatch on the stored channel name
with default parameters. -/
def KrakenWebSocketService.resubChannel (st : ConnState) (name pair : String) :
    ConnState :=
  if name = "ticker" then (KrakenWebSocketService.subscribeTicker st [pair]).1
  else if name = "book" then (KrakenWebSocketService.subscribeOrderBook st [pair] 10).1
  else if name = "ohlc" then (KrakenWebSocketService.subscribeOHLC st [pair] 1).1
  else if name = "trade" then (KrakenWebSocketService.subscribeTrades st [pair]).1
  else st

/-- KrakenWebSocketService.resubscribe: snapshots the channel-id binding table,
clears it, and replays one subscribe per previously active key using only the
channel and pair recovered from the key. -/
def KrakenWebSocketService.resubscribe (s : ConnState) : ConnState :=
  let subs := s.subscriptions
  let s0 := { s with subscriptions := [] }
  subs.foldl
    (fun st e => KrakenWebSocketService.resubChannel st (splitKey e.1).1 (splitKey e.1).2)
    s0

/-- The subscription keys recognized by SubscriptionManager.subscribe. -/
def knownChannel (channel : String) : Bool :=
  channel = "book" || channel = "ohlc" || channel = "ticker" || channel = "trade"

/-- The map key used by the subscription manager for a channel and pair. -/
def mkKey (channel pair : String) : String :=
  channel ++ ":" ++ pair

/-- State of the SubscriptionManager singleton together with the connection
service it delegates to.  nextHandlerId allocates fresh identifiers for the
closures produced by createChannelHandler; deliveries logs each throttled
delivery (key and payload) made to the callback set of a key. -/
structure ManagerState : Type where
  activeSubscriptions : List (String × List Nat)
  subscriptionCounts : List (String × Nat)
  lastUpdateTime : List (String × Nat)
  pendingUpdates : List (String × Nat)
  throttleTimers : List (String × Nat)
  baseThrottleInterval : Nat
  maxThrottleInterval : Nat
  nextHandlerId : Nat
  deliveries : List (String × Nat)
  ws : ConnState
deriving DecidableEq, Repr

/-- The transport subscribe call made for a channel on first subscription. -/
def SubscriptionManager.sendSubscribeFor (channel pair : String)
    (depth interval : Nat) (ws : ConnState) : ConnState × Bool :=
  if channel = "book" then KrakenWebSocketService.subscribeOrderBook ws [pair] depth
  else if channel = "ohlc" then KrakenWebSocketService.subscribeOHLC ws [pair] interval
  else if channel = "ticker" then KrakenWebSocketService.subscribeTicker ws [pair]
  else if channel = "trade" then KrakenWebSocketService.subscribeTrades ws [pair]
  else (ws, false)

/-- SubscriptionManager.subscribe: when a record exists for the key, the
callback is added to the set and the reference count incremented with no
transport contact; otherwise a record is created, a channel handler closure is
registered for the four known channels, and the upstream subscribe is sent,
the record being rolled back on failure. -/
def SubscriptionManager.subscribe (s : ManagerState) (channel pair : String)
    (cb : Nat) (depth : Nat := 25) (interval : Nat := 1) : ManagerState × Bool :=
  let key := mkKey channel pair
  match alGet key s.activeSubscriptions with
  | some cbs =>
    let count := (alGet key s.subscriptionCounts).getD 0
    ({ s with activeSubscriptions := alSet key (setAdd cbs cb) s.activeSubscriptions
            , subscriptionCounts := alSet key (count + 1) s.subscriptionCounts }, true)
  | none =>
    let s1 := { s with activeSubscriptions := alSet key [cb] s.activeSubscriptions
                     , subscriptionCounts := alSet key 1 s.subscriptionCounts
                     , lastUpdateTime := alSet key 0 s.lastUpdateTime }
    let s2 :=
      if knownChannel channel then
        { s1 with ws := KrakenWebSocketService.on s1.ws channel s1.nextHandlerId
                , nextHandlerId := s1.nextHandlerId + 1 }
      else s1
    let res := SubscriptionManager.sendSubscribeFor channel pair depth interval s2.ws
    let s3 := { s2 with ws := res.1 }
    if res.2 then (s3, true)
    else
      ({ s3 with activeSubscriptions := alDel key s3.activeSubscriptions
               , subscriptionCounts := alDel key s3.subscriptionCounts
               , lastUpdateTime := alDel key s3.lastUpdateTime }, false)

/-- SubscriptionManager.unsubscribe: removes the callback from the set of the
key; while the reference count stays above one it is only decremented; when
the last reference is released the record, the pending update and the throttle
timer are discarded, a freshly created channel handler closure is passed to
off, and the upstream unsubscribe is sent. -/
def SubscriptionManager.unsubscribe (s : ManagerState) (channel pair : String)
    (cb : Nat) : ManagerState × Bool :=
  let key := mkKey channel pair
  match alGet key s.activeSubscriptions with
  | none => (s, true)
  | some cbs =>
    let s1 := { s with activeSubscriptions :=
                  alSet key (setDelete cbs cb) s.activeSubscriptions }
    let count := (alGet key s1.subscriptionCounts).getD 0
    if 1 < count then
      ({ s1 with subscriptionCounts := alSet key (count - 1) s1.subscriptionCounts }, true)
    else
      let s2 := { s1 with activeSubscriptions := alDel key s1.activeSubscriptions
                        , subscriptionCounts := alDel key s1.subscriptionCounts
                        , lastUpdateTime := alDel key s1.lastUpdateTime
                        , throttleTimers := alDel key s1.throttleTimers
                        , pendingUpdates := alDel key s1.pendingUpdates }
      let s3 := { s2 with ws := KrakenWebSocketService.off s2.ws channel s2.nextHandlerId
                        , nextHandlerId := s2.nextHandlerId + 1 }
      let res := KrakenWebSocketService.unsubscribeChannel s3.ws channel [pair]
      ({ s3 with ws := res.1 }, res.2)

/-- The throttle interval of a key: base interval scaled by the subscriber
count (one when the count is missing or zero) and capped at the maximum. -/
def throttleIntervalFor (s : ManagerState) (key : String) : Nat :=
  let c := (alGet key s.subscriptionCounts).getD 0
  let subscriberCount := if c = 0 then 1 else c
  min (s.baseThrottleInterval * subscriberCount) s.maxThrottleInterval

/-- Body of the closure built by createChannelHandler, after the pair filter
has passed: with a nonempty callback set the payload is stashed as the pending
update; when no timer runs and the time since the last delivery is not within
the throttle interval, a timer is armed to fire one interval from now. -/
def SubscriptionManager.handleChannelEventCore (s : ManagerState) (key : String)
    (payload now : Nat) : ManagerState :=
  match alGet key s.activeSubscriptions with
  | none => s
  | some cbs =>
    if cbs.isEmpty then s
    else
      let s1 := { s with pendingUpdates := alSet key payload s.pendingUpdates }
      let interval := throttleIntervalFor s1 key
      let lastUpdate := (alGet key s1.lastUpdateTime).getD 0
      let timeElapsed := now - lastUpdate
      if (alGet key s1.throttleTimers).isSome then s1
      else if timeElapsed < interval then s1
      else { s1 with throttleTimers := alSet key (now + interval) s1.throttleTimers }

/-- The closure built by createChannelHandler for a channel and pair: messages
tagged with a different pair are ignored, the rest is handled by the core. -/
def SubscriptionManager.handleChannelEvent (s : ManagerState) (channel pair : String)
    (msgPair : Option String) (payload now : Nat) : ManagerState :=
  match msgPair with
  | some q => if q ≠ pair then s else
      SubscriptionManager.handleChannelEventCore s (mkKey channel pair) payload now
  | none => SubscriptionManager.handleChannelEventCore s (mkKey channel pair) payload now

/-- The timeout callback armed by the handler: with a pending update present
it records the delivery time, discards the timer and the pending update, and
delivers the latest payload to the callbacks read at fire time. -/
def SubscriptionManager.fireThrottleTimer (s : ManagerState) (key : String)
    (now : Nat) : ManagerState :=
  match alGet key s.pendingUpdates with
  | none => s
  | some pendingData =>
    let s1 := { s with lastUpdateTime := alSet key now s.lastUpdateTime
                     , throttleTimers := alDel key s.throttleTimers
                     , pendingUpdates := alDel key s.pendingUpdates }
    match alGet key s1.activeSubscriptions with
    | none => s1
    | some cbs =>
      if cbs.isEmpty then s1
      else { s1 with deliveries := s1.deliveries ++ [(key, pendingData)] }

/-- Initial state of the connection service with an open transport. -/
def openWS : ConnState :=
  { socketExists := true
  , socketOpen := true
  , subscriptions := []
  , messageHandlers := []
  , reconnectAttempts := 0
  , reconnectTimerActive := false
  , scheduledDelay := none
  , heartbeatActive := false
  , connectionState := ConnectionState.connected
  , sentMessages := [] }

/-- Initial state of the subscription manager over an open transport. -/
def initMgr : ManagerState :=
  { activeSubscriptions := []
  , subscriptionCounts := []
  , lastUpdateTime := []
  , pendingUpdates := []
  , throttleTimers := []
  , baseThrottleInterval := 100
  , maxThrottleInterval := 500
  , nextHandlerId := 0
  , deliveries := []
  , ws := openWS }

/-- Fold subscribing a list of callbacks for one channel and pair. -/
def subscribeAll (s : ManagerState) (channel pair : String) (cbs : List Nat) :
    ManagerState :=
  cbs.foldl (fun st c => (SubscriptionManager.subscribe st channel pair c 25 1).1) s

/-- Fold unsubscribing a list of callbacks for one channel and pair. -/
def unsubscribeAll (s : ManagerState) (channel pair : String) (cbs : List Nat) :
    ManagerState :=
  cbs.foldl (fun st c => (SubscriptionManager.unsubscribe st channel pair c).1) s

/-- Recognize an upstream subscribe frame. -/
def isSubscribeMsg : WireMsg → Bool
  | WireMsg.sub _ _ _ _ => true
  | WireMsg.unsub _ _ => false

/-- Recognize an upstream unsubscribe frame. -/
def isUnsubscribeMsg : WireMsg → Bool
  | WireMsg.sub _ _ _ _ => false
  | WireMsg.unsub _ _ => true

/-- One price level of the application order book format: price, amount and
cumulative total. -/
structure OrderBookEntry : Type where
  price : ℚ
  amount : ℚ
  total : ℚ
deriving DecidableEq, Repr

/-- The payload of a Kraken book frame: optional snapshot sides and optional
update sides, each a list of price and volume pairs (the trailing timestamp
column is not read by the formatting code). -/
structure BookMessage : Type where
  asSnapshot : Option (List (ℚ × ℚ))
  bsSnapshot : Option (List (ℚ × ℚ))
  aUpdates : Option (List (ℚ × ℚ))
  bUpdates : Option (List (ℚ × ℚ))
deriving DecidableEq, Repr

/-- Push the snapshot rows of one side, totals initialized to zero. -/
def snapshotSide (rows : List (ℚ × ℚ)) : List OrderBookEntry :=
  rows.map (fun r => { price := r.1, amount := r.2, total := 0 })

/-- Splice out the level found by findIndex on price equality, if any. -/
def removeLevel (p : ℚ) : List OrderBookEntry → List OrderBookEntry
  | [] => []
  | e :: rest => if e.price = p then rest else e :: removeLevel p rest

/-- Whether findIndex on price equality succeeds. -/
def hasLevel (p : ℚ) (l : List OrderBookEntry) : Bool :=
  l.any (fun e => decide (e.price = p))

/-- Overwrite the amount of the level found by findIndex on price equality. -/
def setAmountAtLevel (p amt : ℚ) : List OrderBookEntry → List OrderBookEntry
  | [] => []
  | e :: rest =>
    if e.price = p then { e with amount := amt } :: rest
    else e :: setAmountAtLevel p amt rest

/-- One update row inside formatOrderBookData: volume zero removes the level
when present, any other volume updates the amount in place or pushes a new
level. -/
def applyUpdateRow (side : List OrderBookEntry) (row : ℚ × ℚ) : List OrderBookEntry :=
  if row.2 = 0 then removeLevel row.1 side
  else if hasLevel row.1 side then setAmountAtLevel row.1 row.2 side
  else side ++ [{ price := row.1, amount := row.2, total := 0 }]

/-- Ascending price comparison used to sort the ask side. -/
def askLe (a b : OrderBookEntry) : Prop := a.price ≤ b.price

/-- Descending price comparison used to sort the bid side. -/
def bidLe (a b : OrderBookEntry) : Prop := b.price ≤ a.price

instance : DecidableRel askLe := fun a b => inferInstanceAs (Decidable (a.price ≤ b.price))

instance : DecidableRel bidLe := fun a b => inferInstanceAs (Decidable (b.price ≤ a.price))

instance : IsTotal OrderBookEntry askLe := ⟨fun a b => le_total a.price b.price⟩

instance : IsTrans OrderBookEntry askLe := ⟨fun _ _ _ h h' => le_trans h h'⟩

instance : IsTotal OrderBookEntry bidLe := ⟨fun a b => le_total b.price a.price⟩

instance : IsTrans OrderBookEntry bidLe := ⟨fun _ _ _ h h' => le_trans h' h⟩

/-- Sort the ask side ascending by price. -/
def sortAsks (l : List OrderBookEntry) : List OrderBookEntry :=
  List.insertionSort askLe l

/-- Sort the bid side descending by price. -/
def sortBids (l : List OrderBookEntry) : List OrderBookEntry :=
  List.insertionSort bidLe l

/-- Walk a sorted side accumulating the running total of amounts. -/
def withTotals (acc : ℚ) : List OrderBookEntry → List OrderBookEntry
  | [] => []
  | e :: rest => { e with total := acc + e.amount } :: withTotals (acc + e.amount) rest

/-- KrakenWebSocketService.formatOrderBookData on the frame payload: the
snapshot sides are pushed, the update rows are applied against those freshly
built arrays, then each side is sorted and its cumulative totals computed. -/
def formatOrderBookData (m : BookMessage) :
    List OrderBookEntry × List OrderBookEntry :=
  let asks0 := snapshotSide (m.asSnapshot.getD [])
  let bids0 := snapshotSide (m.bsSnapshot.getD [])
  let asks1 := (m.aUpdates.getD []).foldl applyUpdateRow asks0
  let bids1 := (m.bUpdates.getD []).foldl applyUpdateRow bids0
  (withTotals 0 (sortAsks asks1), withTotals 0 (sortBids bids1))

/-- Replace the level found by findIndex on price equality with the incoming
entry. -/
def replaceLevel (e : OrderBookEntry) : List OrderBookEntry → List OrderBookEntry
  | [] => []
  | x :: rest => if x.price = e.price then e :: rest else x :: replaceLevel e rest

/-- One row of the merge done by the useOrderBook throttled state updater:
amount zero removes the level when present, otherwise the level is replaced in
place or pushed. -/
def mergeRow (side : List OrderBookEntry) (e : OrderBookEntry) : List OrderBookEntry :=
  if e.amount = 0 then removeLevel e.price side
  else if hasLevel e.price side then replaceLevel e side
  else side ++ [e]

/-- The two-sided order book kept by the useOrderBook hook. -/
structure Book : Type where
  asks : List OrderBookEntry
  bids : List OrderBookEntry
deriving DecidableEq, Repr

/-- The empty order book. -/
def emptyBook : Book := { asks := [], bids := [] }

/-- One throttled update of the useOrderBook state: the raw frame is formatted
by formatOrderBookData, merged into the previous book, and each side is then
sorted and its cumulative totals recomputed. -/
def applyBookMessage (b : Book) (m : BookMessage) : Book :=
  let f := formatOrderBookData m
  let asks1 := f.1.foldl mergeRow b.asks
  let bids1 := f.2.foldl mergeRow b.bids
  { asks := withTotals 0 (sortAsks asks1), bids := withTotals 0 (sortBids bids1) }

/-- The static asset alias table of formatPairForKraken. -/
def streamingAssetMap : List (String × String) :=
  [("BTC", "XBT"), ("ETH", "ETH"), ("USD", "USD"), ("EUR", "EUR"),
   ("GBP", "GBP"), ("JPY", "JPY"), ("CAD", "CAD"), ("AUD", "AUD")]

/-- KrakenWebSocketService.formatPairForKraken, parameterized by the lookup in
the preloaded reference table (the wsname field of the entry found under the
concatenated base and quote key of krakenPairs.json, a data file not part of
the sources): found entries resolve to their wire name, the fallback composes
the aliased base and quote with a slash. -/
def formatPairForKraken (table : String → Option String)
    (baseAsset quoteAsset : String) : String :=
  match table (baseAsset ++ quoteAsset) with
  | some wsname => wsname
  | none =>
    let base := (alGet baseAsset streamingAssetMap).getD baseAsset
    let quote := (alGet quoteAsset streamingAssetMap).getD quoteAsset
    base ++ "/" ++ quote

/-- The base asset table of formatPairForRestAPI. -/
def restBaseMap : List (String × String) :=
  [("XBT", "XXBT"), ("BTC", "XXBT"), ("ETH", "XETH"), ("LTC", "XLTC"),
   ("XRP", "XXRP"), ("XDG", "XXDG"), ("XLM", "XXLM"), ("ADA", "ADA"),
   ("DOT", "DOT"), ("SOL", "SOL")]

/-- The quote asset table of formatPairForRestAPI. -/
def restQuoteMap : List (String × String) :=
  [("USD", "ZUSD"), ("EUR", "ZEUR"), ("GBP", "ZGBP"), ("JPY", "ZJPY"),
   ("CAD", "ZCAD"), ("AUD", "ZAUD")]

/-- formatPairForRestAPI from krakenUtils: splits the slash form, maps each
asset through its REST table with a length-based letter fallback, and
concatenates. -/
def formatPairForRestAPI (pairStr : String) : String :=
  let parts := (splitSegs (Char.ofNat 47) pairStr.data).map String.mk
  let base := parts.getD 0 ""
  let quote := parts.getD 1 ""
  let formattedBase :=
    (alGet base restBaseMap).getD (if base.data.length ≤ 3 then "X" ++ base else base)
  let formattedQuote :=
    (alGet quote restQuoteMap).getD (if quote.data.length ≤ 3 then "Z" ++ quote else quote)
  formattedBase ++ formattedQuote

/-- Keys of an association list are pairwise distinct. -/
def keysND {β : Type} (m : List (String × β)) : Prop :=
  (m.map Prod.fst).Nodup

theorem alGet_alSet_self {β : Type} (k : String) (v : β) (m : List (String × β)) :
    alGet k (alSet k v m) = some v := by
  induction m with
  | nil => simp [alGet, alSet]
  | cons e rest ih =>
    obtain ⟨ek, ev⟩ := e
    by_cases h : ek = k
    · simp [alGet, alSet, h]
    · simp [alGet, alSet, h, ih]

theorem alGet_alSet_ne {β : Type} {k' k : String} (h : k' ≠ k) (v : β)
    (m : List (String × β)) : alGet k (alSet k' v m) = alGet k m := by
  induction m with
  | nil => simp [alGet, alSet, h]
  | cons e rest ih =>
    obtain ⟨ek, ev⟩ := e
    by_cases h1 : ek = k'
    · subst h1
      simp [alGet, alSet, h]
    · simp [alGet, alSet, h1, ih]

theorem alGet_alDel_ne {β : Type} {k' k : String} (h : k' ≠ k)
    (m : List (String × β)) : alGet k (alDel k' m) = alGet k m := by
  induction m with
  | nil => simp [alDel]
  | cons e rest ih =>
    obtain ⟨ek, ev⟩ := e
    by_cases h1 : ek = k'
    · subst h1
      simp [alGet, alDel, h]
    · simp [alGet, alDel, h1, ih]

theorem alGet_mem {β : Type} {k : String} {v : β} {m : List (String × β)}
    (h : alGet k m = some v) : (k, v) ∈ m := by
  induction m with
  | nil => simp [alGet] at h
  | cons e rest ih =>
    obtain ⟨ek, ev⟩ := e
    by_cases h1 : ek = k
    · subst h1
      simp [alGet] at h
      subst h
      exact List.mem_cons_self _ _
    · simp [alGet, h1] at h
      exact List.mem_cons_of_mem _ (ih h)

theorem alGet_alDel_self {β : Type} (k : String) (m : List (String × β))
    (hnd : keysND m) : alGet k (alDel k m) = none := by
  induction m with
  | nil => simp [alGet, alDel]
  | cons e rest ih =>
    obtain ⟨ek, ev⟩ := e
    have hnd2 : (ek :: rest.map Prod.fst).Nodup := hnd
    have hnotin : ek ∉ rest.map Prod.fst := (List.nodup_cons.mp hnd2).1
    have hnd' : keysND rest := (List.nodup_cons.mp hnd2).2
    by_cases h1 : ek = k
    · subst h1
      simp only [alDel, if_pos rfl]
      cases hget : alGet ek rest with
      | none => exact hget
      | some w =>
        exact absurd (List.mem_map.mpr ⟨(ek, w), alGet_mem hget, rfl⟩) hnotin
    · simp [alGet, alDel, h1, ih hnd']

theorem alSet_map_fst {β : Type} (k : String) (v : β) (m : List (String × β)) :
    (alSet k v m).map Prod.fst =
      if k ∈ m.map Prod.fst then m.map Prod.fst else m.map Prod.fst ++ [k] := by
  induction m with
  | nil => simp [alSet]
  | cons e rest ih =>
    obtain ⟨ek, ev⟩ := e
    by_cases h1 : ek = k
    · subst h1
      simp [alSet]
    · have h2 : ¬ k = ek := fun hh => h1 hh.symm
      by_cases h3 : k ∈ rest.map Prod.fst
      · simp [alSet, h1, h2, h3, ih]
      · simp [alSet, h1, h2, h3, ih]

theorem keysND_alSet {β : Type} (k : String) (v : β) {m : List (String × β)}
    (hnd : keysND m) : keysND (alSet k v m) := by
  unfold keysND at hnd ⊢
  rw [alSet_map_fst]
  by_cases h : k ∈ m.map Prod.fst
  · simpa [h] using hnd
  · simp [h, List.nodup_append, hnd]

theorem alDel_sublist {β : Type} (k : String) (m : List (String × β)) :
    (alDel k m).Sublist m := by
  induction m with
  | nil => simp [alDel]
  | cons e rest ih =>
    by_cases h1 : e.1 = k
    · simp only [alDel, if_pos h1]
      exact List.sublist_cons_self e rest
    · simp only [alDel, if_neg h1]
      exact ih.cons₂ e

theorem keysND_alDel {β : Type} (k : String) {m : List (String × β)}
    (hnd : keysND m) : keysND (alDel k m) := by
  exact List.Nodup.sublist ((alDel_sublist k m).map Prod.fst) hnd

/-- C10: disconnect cancels the heartbeat, cancels any pending reconnect
timer, closes the socket without auto-reconnect and clears the subscription
bookkeeping, but never writes the connection-state field: a client in the
connected state still reports connected immediately after disconnect. -/
theorem c10_disconnect_preserves_connection_state (s : ConnState) :
    (KrakenWebSocketService.disconnect s).heartbeatActive = false ∧
    (KrakenWebSocketService.disconnect s).reconnectTimerActive = false ∧
    (KrakenWebSocketService.disconnect s).scheduledDelay = none ∧
    (KrakenWebSocketService.disconnect s).socketExists = false ∧
    (KrakenWebSocketService.disconnect s).socketOpen = false ∧
    (KrakenWebSocketService.disconnect s).subscriptions = [] ∧
    KrakenWebSocketService.getConnectionState (KrakenWebSocketService.disconnect s) =
      KrakenWebSocketService.getConnectionState s ∧
    (s.connectionState = ConnectionState.connected →
      KrakenWebSocketService.getConnectionState (KrakenWebSocketService.disconnect s) =
        ConnectionState.connected) := by
  refine ⟨rfl, rfl, rfl, rfl, rfl, rfl, rfl, fun h => ?_⟩
  simpa [KrakenWebSocketService.disconnect, KrakenWebSocketService.getConnectionState]
    using h

/-- Witness for C10 at the concrete connected state. -/
theorem c10_witness :
    KrakenWebSocketService.getConnectionState (KrakenWebSocketService.disconnect openWS) =
      ConnectionState.connected :=
  (c10_disconnect_preserves_connection_state openWS).2.2.2.2.2.2.2 rfl

theorem onUnexpectedClose_saturated (s : ConnState)
    (h : maxReconnectAttempts ≤ s.reconnectAttempts) :
    (KrakenWebSocketService.onUnexpectedClose s).connectionState = ConnectionState.error ∧
    (KrakenWebSocketService.onUnexpectedClose s).reconnectTimerActive = false ∧
    (KrakenWebSocketService.onUnexpectedClose s).scheduledDelay = none ∧
    (KrakenWebSocketService.onUnexpectedClose s).reconnectAttempts =
      s.reconnectAttempts := by
  have hlt : ¬ s.reconnectAttempts < maxReconnectAttempts := not_lt.mpr h
  simp [KrakenWebSocketService.onUnexpectedClose, KrakenWebSocketService.handleReconnect,
    hlt]

theorem applyCloses_saturated (m : Nat) (s : ConnState)
    (h : maxReconnectAttempts ≤ s.reconnectAttempts)
    (hstate : s.connectionState = ConnectionState.error)
    (htimer : s.reconnectTimerActive = false) :
    (applyCloses m s).connectionState = ConnectionState.error ∧
    (applyCloses m s).reconnectTimerActive = false := by
  induction m generalizing s with
  | zero => exact ⟨hstate, htimer⟩
  | succ n ih =>
    obtain ⟨h1, h2, _, h4⟩ := onUnexpectedClose_saturated s h
    exact ih _ (h4 ▸ h) h1 h2

/-- C7: an unexpected close moves the connection to the reconnecting state
and increments the attempt count while below the maximum of five, scheduling
the next attempt after the base delay times 1.5 to the power (n - 1) for
attempt n; once the maximum is reached the state becomes error and no
iteration of further unexpected closes ever schedules another attempt. -/
theorem c7_reconnect_state_machine (s : ConnState) :
    (s.reconnectAttempts < maxReconnectAttempts →
      (KrakenWebSocketService.onUnexpectedClose s).connectionState =
        ConnectionState.reconnecting ∧
      (KrakenWebSocketService.onUnexpectedClose s).reconnectAttempts =
        s.reconnectAttempts + 1 ∧
      (KrakenWebSocketService.onUnexpectedClose s).reconnectTimerActive = true ∧
      (KrakenWebSocketService.onUnexpectedClose s).scheduledDelay =
        some (reconnectDelay * (3 / 2 : ℚ) ^ s.reconnectAttempts)) ∧
    (s.reconnectAttempts ≤ maxReconnectAttempts →
      (KrakenWebSocketService.onUnexpectedClose s).reconnectAttempts ≤
        maxReconnectAttempts) ∧
    (maxReconnectAttempts ≤ s.reconnectAttempts →
      (KrakenWebSocketService.onUnexpectedClose s).connectionState =
        ConnectionState.error ∧
      (KrakenWebSocketService.onUnexpectedClose s).reconnectTimerActive = false ∧
      (KrakenWebSocketService.onUnexpectedClose s).scheduledDelay = none ∧
      ∀ m, (applyCloses m (KrakenWebSocketService.onUnexpectedClose s)).connectionState =
              ConnectionState.error ∧
           (applyCloses m
              (KrakenWebSocketService.onUnexpectedClose s)).reconnectTimerActive =
              false) := by
  refine ⟨fun h => ?_, fun h => ?_, fun h => ?_⟩
  · simp [KrakenWebSocketService.onUnexpectedClose,
      KrakenWebSocketService.handleReconnect, h]
  · by_cases hlt : s.reconnectAttempts < maxReconnectAttempts
    · have := Nat.succ_le_of_lt hlt
      simp [KrakenWebSocketService.onUnexpectedClose,
        KrakenWebSocketService.handleReconnect, hlt]
      omega
    · obtain ⟨_, _, _, h4⟩ := onUnexpectedClose_saturated s (not_lt.mp hlt)
      rw [h4]
      exact h
  · obtain ⟨h1, h2, h3, h4⟩ := onUnexpectedClose_saturated s h
    exact ⟨h1, h2, h3, fun m => applyCloses_saturated m _ (h4 ▸ h) h1 h2⟩

/-- A connection state saturated at the reconnect attempt maximum. -/
def saturatedWS : ConnState := { openWS with reconnectAttempts := 5 }

/-- Witness for C7 at a fresh state and at the saturated state. -/
theorem c7_witness :
    (KrakenWebSocketService.onUnexpectedClose openWS).connectionState =
      ConnectionState.reconnecting ∧
    (KrakenWebSocketService.onUnexpectedClose openWS).scheduledDelay = some 2000 ∧
    (KrakenWebSocketService.onUnexpectedClose saturatedWS).connectionState =
      ConnectionState.error ∧
    (applyCloses 3 (KrakenWebSocketService.onUnexpectedClose saturatedWS)).connectionState =
      ConnectionState.error ∧
    (applyCloses 3
        (KrakenWebSocketService.onUnexpectedClose saturatedWS)).reconnectTimerActive =
      false := by
  obtain ⟨hA, -, -⟩ := c7_reconnect_state_machine openWS
  obtain ⟨-, -, hB⟩ := c7_reconnect_state_machine saturatedWS
  obtain ⟨a1, a2, a3, a4⟩ := hA (by decide)
  obtain ⟨b1, b2, b3, b4⟩ := hB (by decide)
  refine ⟨a1, ?_, b1, (b4 3).1, (b4 3).2⟩
  rw [a4]
  norm_num [reconnectDelay, openWS]

/-- C8: the streaming-symbol resolver returns the wire name of the reference
table when the concatenated base and quote key is present, and otherwise
composes the aliased base and quote with a slash, so BTC/USD resolves to
XBT/USD; the REST resolver maps XBT/USD to the concatenated form XXBTZUSD,
a different string, so the two conventions never coincide for that pair. -/
theorem c8_two_wire_conventions (table : String → Option String)
    (base quote w : String) :
    (table (base ++ quote) = some w → formatPairForKraken table base quote = w) ∧
    (table (base ++ quote) = none →
      formatPairForKraken table base quote =
        ((alGet base streamingAssetMap).getD base) ++ "/" ++
          ((alGet quote streamingAssetMap).getD quote)) ∧
    (table "BTCUSD" = none → formatPairForKraken table "BTC" "USD" = "XBT/USD") ∧
    formatPairForRestAPI "XBT/USD" = "XXBTZUSD" ∧
    (table "BTCUSD" = none →
      formatPairForKraken table "BTC" "USD" ≠
        formatPairForRestAPI (formatPairForKraken table "BTC" "USD")) := by
  have heq : ("BTC" ++ "USD" : String) = "BTCUSD" := by decide
  have hbtc : ∀ h : table "BTCUSD" = none,
      formatPairForKraken table "BTC" "USD" = "XBT/USD" := by
    intro h
    unfold formatPairForKraken
    rw [heq, h]
    decide
  refine ⟨fun h => ?_, fun h => ?_, hbtc, by decide, fun h => ?_⟩
  · unfold formatPairForKraken
    rw [h]
  · unfold formatPairForKraken
    rw [h]
  · rw [hbtc h]
    decide

/-- Witness for C8 with an empty reference table. -/
theorem c8_witness :
    formatPairForKraken (fun _ => none) "BTC" "USD" = "XBT/USD" ∧
    formatPairForRestAPI "XBT/USD" = "XXBTZUSD" ∧
    formatPairForKraken (fun _ => none) "BTC" "USD" ≠
      formatPairForRestAPI (formatPairForKraken (fun _ => none) "BTC" "USD") := by
  obtain ⟨-, -, h3, h4, h5⟩ :=
    c8_two_wire_conventions (fun _ => none) "BTC" "USD" "XBT/USD"
  exact ⟨h3 rfl, h4, h5 rfl⟩

/-- One consumer-level operation on the subscription manager. -/
inductive MgrOp : Type
  | subOp (channel pair : String) (cb : Nat)
  | unsubOp (channel pair : String) (cb : Nat)
deriving DecidableEq, Repr

/-- Apply one operation, keeping the resulting state. -/
def applyOp (s : ManagerState) : MgrOp → ManagerState
  | MgrOp.subOp c p cb => (SubscriptionManager.subscribe s c p cb 25 1).1
  | MgrOp.unsubOp c p cb => (SubscriptionManager.unsubscribe s c p cb).1

/-- Run a sequence of operations. -/
def runOps (s : ManagerState) : List MgrOp → ManagerState
  | [] => s
  | op :: rest => runOps (applyOp s op) rest

/-- An operation is admissible when a subscribe does not re-add a callback
already registered for its key and an unsubscribe removes a callback that is
present in the set of its key. -/
def opAdmissible (s : ManagerState) : MgrOp → Bool
  | MgrOp.subOp c p cb =>
    match alGet (mkKey c p) s.activeSubscriptions with
    | some l => decide (cb ∉ l)
    | none => true
  | MgrOp.unsubOp c p cb =>
    match alGet (mkKey c p) s.activeSubscriptions with
    | some l => decide (cb ∈ l)
    | none => true

/-- Every operation of the sequence is admissible in the state where it runs. -/
def opsAdmissible (s : ManagerState) : List MgrOp → Bool
  | [] => true
  | op :: rest => opAdmissible s op && opsAdmissible (applyOp s op) rest

/-- The reference count map mirrors the callback set sizes on every key. -/
def refCountsConsistent (s : ManagerState) : Prop :=
  ∀ k, alGet k s.subscriptionCounts = (alGet k s.activeSubscriptions).map List.length

/-- Well-formedness carried through runs: distinct map keys and consistent
reference counts. -/
def mgrWellFormed (s : ManagerState) : Prop :=
  keysND s.activeSubscriptions ∧ keysND s.subscriptionCounts ∧ refCountsConsistent s

theorem subscribe_existing_fields {s : ManagerState} {c p : String} (cb d i : Nat)
    {cbs : List Nat} (hact : alGet (mkKey c p) s.activeSubscriptions = some cbs) :
    (SubscriptionManager.subscribe s c p cb d i).1.activeSubscriptions =
      alSet (mkKey c p) (setAdd cbs cb) s.activeSubscriptions ∧
    (SubscriptionManager.subscribe s c p cb d i).1.subscriptionCounts =
      alSet (mkKey c p) ((alGet (mkKey c p) s.subscriptionCounts).getD 0 + 1)
        s.subscriptionCounts ∧
    (SubscriptionManager.subscribe s c p cb d i).1.lastUpdateTime = s.lastUpdateTime ∧
    (SubscriptionManager.subscribe s c p cb d i).1.pendingUpdates = s.pendingUpdates ∧
    (SubscriptionManager.subscribe s c p cb d i).1.throttleTimers = s.throttleTimers ∧
    (SubscriptionManager.subscribe s c p cb d i).1.nextHandlerId = s.nextHandlerId ∧
    (SubscriptionManager.subscribe s c p cb d i).1.ws = s.ws ∧
    (SubscriptionManager.subscribe s c p cb d i).2 = true := by
  simp [SubscriptionManager.subscribe, hact]

theorem subscribe_fresh_maps {s : ManagerState} {c p : String} (cb d i : Nat)
    (hact : alGet (mkKey c p) s.activeSubscriptions = none) :
    ((SubscriptionManager.subscribe s c p cb d i).1.activeSubscriptions =
        alSet (mkKey c p) [cb] s.activeSubscriptions ∧
      (SubscriptionManager.subscribe s c p cb d i).1.subscriptionCounts =
        alSet (mkKey c p) 1 s.subscriptionCounts) ∨
    ((SubscriptionManager.subscribe s c p cb d i).1.activeSubscriptions =
        alDel (mkKey c p) (alSet (mkKey c p) [cb] s.activeSubscriptions) ∧
      (SubscriptionManager.subscribe s c p cb d i).1.subscriptionCounts =
        alDel (mkKey c p) (alSet (mkKey c p) 1 s.subscriptionCounts)) := by
  simp only [SubscriptionManager.subscribe, hact]
  split <;> split <;>
    first
      | exact Or.inl ⟨rfl, rfl⟩
      | exact Or.inr ⟨rfl, rfl⟩

theorem unsubscribe_missing_fields {s : ManagerState} {c p : String} {cb : Nat}
    (hact : alGet (mkKey c p) s.activeSubscriptions = none) :
    (SubscriptionManager.unsubscribe s c p cb).1 = s := by
  simp [SubscriptionManager.unsubscribe, hact]

theorem unsubscribe_some_maps {s : ManagerState} {c p : String} (cb : Nat)
    {cbs : List Nat} (hact : alGet (mkKey c p) s.activeSubscriptions = some cbs) :
    (1 < (alGet (mkKey c p) s.subscriptionCounts).getD 0 ∧
      (SubscriptionManager.unsubscribe s c p cb).1.activeSubscriptions =
        alSet (mkKey c p) (setDelete cbs cb) s.activeSubscriptions ∧
      (SubscriptionManager.unsubscribe s c p cb).1.subscriptionCounts =
        alSet (mkKey c p) ((alGet (mkKey c p) s.subscriptionCounts).getD 0 - 1)
          s.subscriptionCounts) ∨
    (¬ 1 < (alGet (mkKey c p) s.subscriptionCounts).getD 0 ∧
      (SubscriptionManager.unsubscribe s c p cb).1.activeSubscriptions =
        alDel (mkKey c p) (alSet (mkKey c p) (setDelete cbs cb) s.activeSubscriptions) ∧
      (SubscriptionManager.unsubscribe s c p cb).1.subscriptionCounts =
        alDel (mkKey c p) s.subscriptionCounts) := by
  simp only [SubscriptionManager.unsubscribe, hact]
  split
  · next hlt =>
    left
    exact ⟨hlt, rfl, rfl⟩
  · next hlt =>
    right
    exact ⟨hlt, rfl, rfl⟩

theorem applyOp_wellFormed {s : ManagerState} {op : MgrOp}
    (hwf : mgrWellFormed s) (hadm : opAdmissible s op = true) :
    mgrWellFormed (applyOp s op) := by
  obtain ⟨hndA, hndC, hmatch⟩ := hwf
  cases op with
  | subOp c p cb =>
    show mgrWellFormed (SubscriptionManager.subscribe s c p cb 25 1).1
    cases hact : alGet (mkKey c p) s.activeSubscriptions with
    | some cbs =>
      have hcb : cb ∉ cbs := by
        simpa [opAdmissible, hact] using hadm
      have hcnt : alGet (mkKey c p) s.subscriptionCounts = some cbs.length := by
        rw [hmatch (mkKey c p), hact]
        rfl
      obtain ⟨e1, e2, -, -, -, -, -, -⟩ :=
        subscribe_existing_fields cb 25 1 hact
      refine ⟨e1 ▸ keysND_alSet _ _ hndA, e2 ▸ keysND_alSet _ _ hndC, ?_⟩
      intro k
      rw [e1, e2]
      by_cases hk : k = mkKey c p
      · subst hk
        rw [alGet_alSet_self, alGet_alSet_self]
        simp [hcnt, setAdd, hcb]
      · rw [alGet_alSet_ne (Ne.symm hk), alGet_alSet_ne (Ne.symm hk)]
        exact hmatch k
    | none =>
      have hcnt : alGet (mkKey c p) s.subscriptionCounts = none := by
        rw [hmatch (mkKey c p), hact]
        rfl
      rcases subscribe_fresh_maps cb 25 1 hact with
        ⟨e1, e2⟩ | ⟨e1, e2⟩
      · refine ⟨e1 ▸ keysND_alSet _ _ hndA, e2 ▸ keysND_alSet _ _ hndC, ?_⟩
        intro k
        rw [e1, e2]
        by_cases hk : k = mkKey c p
        · subst hk
          rw [alGet_alSet_self, alGet_alSet_self]
          rfl
        · rw [alGet_alSet_ne (Ne.symm hk), alGet_alSet_ne (Ne.symm hk)]
          exact hmatch k
      · refine ⟨e1 ▸ keysND_alDel _ (keysND_alSet _ _ hndA),
          e2 ▸ keysND_alDel _ (keysND_alSet _ _ hndC), ?_⟩
        intro k
        rw [e1, e2]
        by_cases hk : k = mkKey c p
        · subst hk
          rw [alGet_alDel_self _ _ (keysND_alSet _ _ hndA),
            alGet_alDel_self _ _ (keysND_alSet _ _ hndC)]
          rfl
        · rw [alGet_alDel_ne (Ne.symm hk), alGet_alDel_ne (Ne.symm hk),
            alGet_alSet_ne (Ne.symm hk), alGet_alSet_ne (Ne.symm hk)]
          exact hmatch k
  | unsubOp c p cb =>
    show mgrWellFormed (SubscriptionManager.unsubscribe s c p cb).1
    cases hact : alGet (mkKey c p) s.activeSubscriptions with
    | none =>
      rw [unsubscribe_missing_fields hact]
      exact ⟨hndA, hndC, hmatch⟩
    | some cbs =>
      have hcb : cb ∈ cbs := by
        simpa [opAdmissible, hact] using hadm
      have hcnt : alGet (mkKey c p) s.subscriptionCounts = some cbs.length := by
        rw [hmatch (mkKey c p), hact]
        rfl
      have hgetd : (alGet (mkKey c p) s.subscriptionCounts).getD 0 = cbs.length := by
        rw [hcnt]
        rfl
      rcases unsubscribe_some_maps cb hact with
        ⟨hlt, e1, e2⟩ | ⟨hlt, e1, e2⟩
      · refine ⟨e1 ▸ keysND_alSet _ _ hndA, e2 ▸ keysND_alSet _ _ hndC, ?_⟩
        intro k
        rw [e1, e2]
        by_cases hk : k = mkKey c p
        · subst hk
          rw [alGet_alSet_self, alGet_alSet_self]
          rw [hgetd] at hlt ⊢
          simp [setDelete, List.length_erase_of_mem hcb]
        · rw [alGet_alSet_ne (Ne.symm hk), alGet_alSet_ne (Ne.symm hk)]
          exact hmatch k
      · refine ⟨e1 ▸ keysND_alDel _ (keysND_alSet _ _ hndA),
          e2 ▸ keysND_alDel _ hndC, ?_⟩
        intro k
        rw [e1, e2]
        by_cases hk : k = mkKey c p
        · subst hk
          rw [alGet_alDel_self _ _ (keysND_alSet _ _ hndA),
            alGet_alDel_self _ _ hndC]
          rfl
        · rw [alGet_alDel_ne (Ne.symm hk), alGet_alDel_ne (Ne.symm hk),
            alGet_alSet_ne (Ne.symm hk)]
          exact hmatch k

theorem runOps_wellFormed {ops : List MgrOp} :
    ∀ {s : ManagerState}, mgrWellFormed s → opsAdmissible s ops = true →
      mgrWellFormed (runOps s ops) := by
  induction ops with
  | nil => intro s hwf _; exact hwf
  | cons op rest ih =>
    intro s hwf hadm
    rcases (Bool.and_eq_true _ _).mp hadm with ⟨h1, h2⟩
    exact ih (applyOp_wellFormed hwf h1) h2

/-- The operation sequence refuting the unconditional claim: the same
callback subscribed twice for one key. -/
def c2BadOps : List MgrOp :=
  [MgrOp.subOp "book" "ETH/USD" 0, MgrOp.subOp "book" "ETH/USD" 0]

/-- An admissible demonstration sequence: two distinct callbacks subscribed,
one of them unsubscribed. -/
def c2DemoOps : List MgrOp :=
  [MgrOp.subOp "book" "ETH/USD" 0, MgrOp.subOp "book" "ETH/USD" 1,
    MgrOp.unsubOp "book" "ETH/USD" 0]

/-- C2 counterexample: subscribing the same callback twice for one key leaves
the tracked reference count at two while the callback set has size one, so
the two representations diverge. -/
theorem c2_counterexample_double_subscribe :
    alGet "book:ETH/USD" ((runOps initMgr c2BadOps).subscriptionCounts) = some 2 ∧
    (alGet "book:ETH/USD" ((runOps initMgr c2BadOps).activeSubscriptions)).map
        List.length = some 1 ∧
    (2 : Nat) ≠ 1 := by
  refine ⟨?_, ?_, by decide⟩ <;> decide

/-- C2 as amended: after every sequence of subscribe and unsubscribe calls in
which no subscribe re-adds a callback already registered for its key and no
unsubscribe removes a callback absent from the set of its key, the tracked
reference count of every active subscription key equals the size of the
callback set of that key. -/
theorem c2_refcount_matches_set_size (ops : List MgrOp)
    (hadm : opsAdmissible initMgr ops = true) :
    ∀ k, alGet k ((runOps initMgr ops).subscriptionCounts) =
      (alGet k ((runOps initMgr ops).activeSubscriptions)).map List.length := by
  have hwf0 : mgrWellFormed initMgr := by
    refine ⟨?_, ?_, fun k => ?_⟩ <;> simp [initMgr, keysND, alGet]
  exact (runOps_wellFormed hwf0 hadm).2.2

/-- Witness for C2 on a concrete admissible sequence. -/
theorem c2_witness :
    opsAdmissible initMgr c2DemoOps = true ∧
    alGet "book:ETH/USD" ((runOps initMgr c2DemoOps).subscriptionCounts) =
      (alGet "book:ETH/USD" ((runOps initMgr c2DemoOps).activeSubscriptions)).map
        List.length :=
  ⟨by decide, c2_refcount_matches_set_size c2DemoOps (by decide) "book:ETH/USD"⟩

/-- All handler identifiers registered in the connection layer lie below the
allocation counter. -/
def allHandlersBelow (m : List (String × List Nat)) (n : Nat) : Bool :=
  m.all (fun e => e.2.all (fun x => decide (x < n)))

theorem allHandlersBelow_spec {m : List (String × List Nat)} {n : Nat}
    {ch : String} {l : List Nat} {h : Nat}
    (hb : allHandlersBelow m n = true) (hget : alGet ch m = some l)
    (hmem : h ∈ l) : h < n := by
  have h1 := List.all_eq_true.mp hb _ (alGet_mem hget)
  exact of_decide_eq_true (List.all_eq_true.mp h1 _ hmem)

theorem send_messageHandlers (s : ConnState) (m : WireMsg) :
    ((KrakenWebSocketService.send s m).1).messageHandlers = s.messageHandlers := by
  unfold KrakenWebSocketService.send
  split
  · rfl
  · split <;> rfl

/-- C9: when the last callback of a key is unsubscribed, the teardown passes a
freshly created closure to off, which removes handlers only by reference
equality; the handler list of the connection layer is therefore unchanged and
the handler registered at first subscribe stays registered. -/
theorem c9_teardown_leaves_handlers (s : ManagerState) (c p : String) (cb : Nat)
    (cbs : List Nat)
    (hb : allHandlersBelow s.ws.messageHandlers s.nextHandlerId = true)
    (hact : alGet (mkKey c p) s.activeSubscriptions = some cbs)
    (hcount : ¬ 1 < (alGet (mkKey c p) s.subscriptionCounts).getD 0) :
    (SubscriptionManager.unsubscribe s c p cb).1.ws.messageHandlers =
      s.ws.messageHandlers := by
  have hoff : KrakenWebSocketService.off s.ws c s.nextHandlerId = s.ws := by
    unfold KrakenWebSocketService.off
    cases hget : alGet c s.ws.messageHandlers with
    | none => simp
    | some l =>
      have hnotin : s.nextHandlerId ∉ l := fun hmem =>
        absurd (allHandlersBelow_spec hb hget hmem) (lt_irrefl _)
      simp [hnotin]
  simp only [SubscriptionManager.unsubscribe, hact]
  split
  · next hlt => exact absurd hlt hcount
  · next =>
    simp only [KrakenWebSocketService.unsubscribeChannel]
    rw [send_messageHandlers]
    exact congrArg ConnState.messageHandlers hoff

/-- A manager state with one subscribed callback for the book channel. -/
def oneSubMgr : ManagerState :=
  (SubscriptionManager.subscribe initMgr "book" "ETH/USD" 7 25 1).1

/-- Witness for C9: tearing down the only callback leaves the handler list,
and the handler registered at first subscribe is still registered. -/
theorem c9_witness :
    (SubscriptionManager.unsubscribe oneSubMgr "book" "ETH/USD" 7).1.ws.messageHandlers =
      oneSubMgr.ws.messageHandlers ∧
    alGet "book"
      ((SubscriptionManager.unsubscribe oneSubMgr "book" "ETH/USD" 7).1.ws.messageHandlers) =
      some [0] :=
  ⟨c9_teardown_leaves_handlers oneSubMgr "book" "ETH/USD" 7 [7] (by decide)
      (by decide) (by decide),
    by decide⟩

theorem alSet_alSet {β : Type} (k : String) (v w : β) (m : List (String × β)) :
    alSet k v (alSet k w m) = alSet k v m := by
  induction m with
  | nil => simp [alSet]
  | cons e rest ih =>
    obtain ⟨ek, ev⟩ := e
    by_cases h : ek = k
    · simp [alSet, h]
    · simp [alSet, h, ih]

/-- A decoded frame reaching a channel handler: the pair tag carried by the
augmented message, the payload and the arrival time. -/
structure ChanEvent : Type where
  tag : Option String
  payload : Nat
  time : Nat
deriving DecidableEq, Repr

/-- Feed a list of frames through the channel handler of one key. -/
def runChannelEvents (s : ManagerState) (channel pair : String) :
    List ChanEvent → ManagerState
  | [] => s
  | e :: rest =>
    runChannelEvents
      (SubscriptionManager.handleChannelEvent s channel pair e.tag e.payload e.time)
      channel pair rest

theorem handleEvent_arms_timer {s : ManagerState} {channel pair : String}
    {cbs : List Nat} {tag : Option String} {payload now : Nat}
    (htag : tag = none ∨ tag = some pair)
    (hcb : alGet (mkKey channel pair) s.activeSubscriptions = some cbs)
    (hne : cbs ≠ [])
    (htimer : alGet (mkKey channel pair) s.throttleTimers = none)
    (helapsed : ¬ now - (alGet (mkKey channel pair) s.lastUpdateTime).getD 0 <
        throttleIntervalFor s (mkKey channel pair)) :
    SubscriptionManager.handleChannelEvent s channel pair tag payload now =
      { s with pendingUpdates := alSet (mkKey channel pair) payload s.pendingUpdates
             , throttleTimers := alSet (mkKey channel pair)
                 (now + throttleIntervalFor s (mkKey channel pair))
                 s.throttleTimers } := by
  have hne' : cbs.isEmpty = false := by
    cases cbs with
    | nil => exact absurd rfl hne
    | cons a l => rfl
  have hcore : SubscriptionManager.handleChannelEventCore s (mkKey channel pair)
      payload now =
      { s with pendingUpdates := alSet (mkKey channel pair) payload s.pendingUpdates
             , throttleTimers := alSet (mkKey channel pair)
                 (now + throttleIntervalFor s (mkKey channel pair))
                 s.throttleTimers } := by
    simp only [SubscriptionManager.handleChannelEventCore, hcb, hne', Bool.false_eq_true,
      if_false, htimer, Option.isSome_none, throttleIntervalFor]
    rw [if_neg]
    exact fun hlt => helapsed hlt
  rcases htag with rfl | rfl
  · exact hcore
  · simpa [SubscriptionManager.handleChannelEvent] using hcore

theorem handleEvent_timer_pending {s : ManagerState} {channel pair : String}
    {cbs : List Nat} {tag : Option String} {t : Nat} (payload now : Nat)
    (htag : tag = none ∨ tag = some pair)
    (hcb : alGet (mkKey channel pair) s.activeSubscriptions = some cbs)
    (hne : cbs ≠ [])
    (htimer : alGet (mkKey channel pair) s.throttleTimers = some t) :
    SubscriptionManager.handleChannelEvent s channel pair tag payload now =
      { s with pendingUpdates :=
          alSet (mkKey channel pair) payload s.pendingUpdates } := by
  have hne' : cbs.isEmpty = false := by
    cases cbs with
    | nil => exact absurd rfl hne
    | cons a l => rfl
  have hcore : SubscriptionManager.handleChannelEventCore s (mkKey channel pair)
      payload now =
      { s with pendingUpdates :=
          alSet (mkKey channel pair) payload s.pendingUpdates } := by
    simp [SubscriptionManager.handleChannelEventCore, hcb, hne', htimer]
  rcases htag with rfl | rfl
  · exact hcore
  · simpa [SubscriptionManager.handleChannelEvent] using hcore

theorem fire_delivers {s : ManagerState} (key : String) {cbs : List Nat}
    {q : Nat} (now : Nat)
    (hp : alGet key s.pendingUpdates = some q)
    (hcb : alGet key s.activeSubscriptions = some cbs) (hne : cbs ≠ []) :
    SubscriptionManager.fireThrottleTimer s key now =
      { s with lastUpdateTime := alSet key now s.lastUpdateTime
             , throttleTimers := alDel key s.throttleTimers
             , pendingUpdates := alDel key s.pendingUpdates
             , deliveries := s.deliveries ++ [(key, q)] } := by
  have hne' : cbs.isEmpty = false := by
    cases cbs with
    | nil => exact absurd rfl hne
    | cons a l => rfl
  simp [SubscriptionManager.fireThrottleTimer, hp, hcb, hne']

theorem runEvents_with_timer (channel pair : String) (cbs : List Nat)
    (s : ManagerState) (T : Nat)
    (hcb : alGet (mkKey channel pair) s.activeSubscriptions = some cbs)
    (hne : cbs ≠ []) :
    ∀ (rest : List ChanEvent) (q : Nat),
      (∀ e ∈ rest, e.tag = none ∨ e.tag = some pair) →
      runChannelEvents
        { s with pendingUpdates := alSet (mkKey channel pair) q s.pendingUpdates
               , throttleTimers := alSet (mkKey channel pair) T s.throttleTimers }
        channel pair rest =
      { s with pendingUpdates := alSet (mkKey channel pair)
                 ((rest.map ChanEvent.payload).getLastD q) s.pendingUpdates
             , throttleTimers := alSet (mkKey channel pair) T s.throttleTimers } := by
  intro rest
  induction rest with
  | nil =>
    intro q htags
    simp [runChannelEvents]
  | cons e rest ih =>
    intro q htags
    have he := htags e (List.mem_cons_self e rest)
    have htags' : ∀ e' ∈ rest, e'.tag = none ∨ e'.tag = some pair :=
      fun e' h' => htags e' (List.mem_cons_of_mem e h')
    have hstep := handleEvent_timer_pending
      (s := { s with pendingUpdates := alSet (mkKey channel pair) q s.pendingUpdates
                   , throttleTimers := alSet (mkKey channel pair) T s.throttleTimers })
      e.payload e.time he hcb hne (alGet_alSet_self _ _ _)
    show runChannelEvents _ channel pair (e :: rest) = _
    rw [runChannelEvents, hstep]
    simp only [alSet_alSet]
    rw [ih e.payload htags']
    rw [List.map_cons, List.getLastD_cons]

/-- C3: for a key with a nonempty callback set, events E1..Ek arriving in one
throttle window (no timer pending at E1, and the time since the last delivery
exceeding the interval at E1, so E1 arms the window timer), produce no
delivery at arrival time, leave a timer armed one interval after E1, and the
timer firing makes exactly one delivery carrying the payload of Ek, the last
event, not that of E1. -/
theorem c3_throttle_coalesces_to_last (s : ManagerState) (channel pair : String)
    (cbs : List Nat) (e1 : ChanEvent) (rest : List ChanEvent)
    (hcb : alGet (mkKey channel pair) s.activeSubscriptions = some cbs)
    (hne : cbs ≠ [])
    (htimer : alGet (mkKey channel pair) s.throttleTimers = none)
    (htags : ∀ e ∈ e1 :: rest, e.tag = none ∨ e.tag = some pair)
    (hfirst : (alGet (mkKey channel pair) s.lastUpdateTime).getD 0 +
        throttleIntervalFor s (mkKey channel pair) < e1.time)
    (hwindow : ∀ e ∈ rest,
        e.time < e1.time + throttleIntervalFor s (mkKey channel pair)) :
    (runChannelEvents s channel pair (e1 :: rest)).deliveries = s.deliveries ∧
    alGet (mkKey channel pair)
        ((runChannelEvents s channel pair (e1 :: rest)).throttleTimers) =
      some (e1.time + throttleIntervalFor s (mkKey channel pair)) ∧
    (SubscriptionManager.fireThrottleTimer
        (runChannelEvents s channel pair (e1 :: rest)) (mkKey channel pair)
        (e1.time + throttleIntervalFor s (mkKey channel pair))).deliveries =
      s.deliveries ++
        [(mkKey channel pair, (rest.map ChanEvent.payload).getLastD e1.payload)] := by
  have he1 := htags e1 (List.mem_cons_self e1 rest)
  have htags' : ∀ e ∈ rest, e.tag = none ∨ e.tag = some pair :=
    fun e h => htags e (List.mem_cons_of_mem e1 h)
  have helapsed : ¬ e1.time - (alGet (mkKey channel pair) s.lastUpdateTime).getD 0 <
      throttleIntervalFor s (mkKey channel pair) := by omega
  have hrun : runChannelEvents s channel pair (e1 :: rest) =
      { s with pendingUpdates := alSet (mkKey channel pair)
                 ((rest.map ChanEvent.payload).getLastD e1.payload) s.pendingUpdates
             , throttleTimers := alSet (mkKey channel pair)
                 (e1.time + throttleIntervalFor s (mkKey channel pair))
                 s.throttleTimers } := by
    rw [runChannelEvents,
      handleEvent_arms_timer he1 hcb hne htimer helapsed,
      runEvents_with_timer channel pair cbs s
        (e1.time + throttleIntervalFor s (mkKey channel pair)) hcb hne rest
        e1.payload htags']
  rw [hrun]
  refine ⟨rfl, alGet_alSet_self _ _ _, ?_⟩
  have hfire := fire_delivers
    (s :=
      { s with
        pendingUpdates :=
          alSet (mkKey channel pair)
            ((rest.map ChanEvent.payload).getLastD e1.payload) s.pendingUpdates
        throttleTimers :=
          alSet (mkKey channel pair)
            (e1.time + throttleIntervalFor s (mkKey channel pair)) s.throttleTimers })
    (mkKey channel pair)
    (e1.time + throttleIntervalFor s (mkKey channel pair))
    (alGet_alSet_self _ _ _) hcb hne
  rw [hfire]

/-- Three frames inside one throttle window of the demonstration manager. -/
def c3DemoEvents : List ChanEvent :=
  [⟨none, 11, 150⟩, ⟨some "ETH/USD", 22, 200⟩, ⟨none, 33, 249⟩]

/-- Witness for C3: three events in one window produce no delivery on
arrival, and the timer firing delivers exactly once with the last payload. -/
theorem c3_witness :
    (runChannelEvents oneSubMgr "book" "ETH/USD" c3DemoEvents).deliveries =
      oneSubMgr.deliveries ∧
    (SubscriptionManager.fireThrottleTimer
        (runChannelEvents oneSubMgr "book" "ETH/USD" c3DemoEvents)
        (mkKey "book" "ETH/USD")
        (150 + throttleIntervalFor oneSubMgr (mkKey "book" "ETH/USD"))).deliveries =
      oneSubMgr.deliveries ++ [(mkKey "book" "ETH/USD", 33)] := by
  obtain ⟨h1, -, h3⟩ := c3_throttle_coalesces_to_last oneSubMgr "book" "ETH/USD" [7]
    ⟨none, 11, 150⟩ [⟨some "ETH/USD", 22, 200⟩, ⟨none, 33, 249⟩]
    (by decide) (by decide) (by decide) (by decide) (by decide) (by decide)
  exact ⟨h1, h3⟩

/-- The single upstream subscribe frame produced for a known channel on first
subscription. -/
def subMsgFor (channel pair : String) (depth interval : Nat) : WireMsg :=
  if channel = "book" then WireMsg.sub "book" [pair] (some depth) none
  else if channel = "ohlc" then WireMsg.sub "ohlc" [formatOhlcPair pair] none (some interval)
  else if channel = "ticker" then WireMsg.sub "ticker" [pair] none none
  else WireMsg.sub "trade" [pair] none none

theorem isSubscribeMsg_subMsgFor (channel pair : String) (d i : Nat) :
    isSubscribeMsg (subMsgFor channel pair d i) = true := by
  unfold subMsgFor
  split
  · rfl
  · split
    · rfl
    · split <;> rfl

theorem send_success_fields {s : ConnState} {m : WireMsg}
    (hex : s.socketExists = true) (hop : s.socketOpen = true) :
    (KrakenWebSocketService.send s m).1.sentMessages = s.sentMessages ++ [m] ∧
    (KrakenWebSocketService.send s m).1.socketExists = true ∧
    (KrakenWebSocketService.send s m).1.socketOpen = true ∧
    (KrakenWebSocketService.send s m).2 = true := by
  simp [KrakenWebSocketService.send, hex, hop]

theorem off_fields (s : ConnState) (c : String) (h : Nat) :
    (KrakenWebSocketService.off s c h).sentMessages = s.sentMessages ∧
    (KrakenWebSocketService.off s c h).socketExists = s.socketExists ∧
    (KrakenWebSocketService.off s c h).socketOpen = s.socketOpen := by
  refine ⟨?_, ?_, ?_⟩ <;> (simp only [KrakenWebSocketService.off]; split <;> rfl)

theorem knownChannel_cases {channel : String} (hch : knownChannel channel = true) :
    channel = "book" ∨ channel = "ohlc" ∨ channel = "ticker" ∨ channel = "trade" := by
  simp only [knownChannel, Bool.or_eq_true, decide_eq_true_eq] at hch
  tauto

theorem subscribe_fresh_full {s : ManagerState} {channel pair : String} (cb d i : Nat)
    (hact : alGet (mkKey channel pair) s.activeSubscriptions = none)
    (hch : knownChannel channel = true)
    (hex : s.ws.socketExists = true) (hop : s.ws.socketOpen = true) :
    (SubscriptionManager.subscribe s channel pair cb d i).1.activeSubscriptions =
      alSet (mkKey channel pair) [cb] s.activeSubscriptions ∧
    (SubscriptionManager.subscribe s channel pair cb d i).1.subscriptionCounts =
      alSet (mkKey channel pair) 1 s.subscriptionCounts ∧
    (SubscriptionManager.subscribe s channel pair cb d i).1.ws.sentMessages =
      s.ws.sentMessages ++ [subMsgFor channel pair d i] ∧
    (SubscriptionManager.subscribe s channel pair cb d i).1.ws.socketExists = true ∧
    (SubscriptionManager.subscribe s channel pair cb d i).1.ws.socketOpen = true ∧
    (SubscriptionManager.subscribe s channel pair cb d i).2 = true := by
  rcases knownChannel_cases hch with rfl | rfl | rfl | rfl <;>
    simp [SubscriptionManager.subscribe, hact, SubscriptionManager.sendSubscribeFor,
      KrakenWebSocketService.subscribeOrderBook, KrakenWebSocketService.subscribeOHLC,
      KrakenWebSocketService.subscribeTicker, KrakenWebSocketService.subscribeTrades,
      KrakenWebSocketService.subscribeGeneric, KrakenWebSocketService.send,
      KrakenWebSocketService.on, knownChannel, hex, hop, subMsgFor]

theorem unsubscribe_decrement_fields {s : ManagerState} {channel pair : String}
    (cb : Nat) {cbs : List Nat}
    (hact : alGet (mkKey channel pair) s.activeSubscriptions = some cbs)
    (hlt : 1 < (alGet (mkKey channel pair) s.subscriptionCounts).getD 0) :
    (SubscriptionManager.unsubscribe s channel pair cb).1.activeSubscriptions =
      alSet (mkKey channel pair) (setDelete cbs cb) s.activeSubscriptions ∧
    (SubscriptionManager.unsubscribe s channel pair cb).1.subscriptionCounts =
      alSet (mkKey channel pair)
        ((alGet (mkKey channel pair) s.subscriptionCounts).getD 0 - 1)
        s.subscriptionCounts ∧
    (SubscriptionManager.unsubscribe s channel pair cb).1.ws = s.ws ∧
    (SubscriptionManager.unsubscribe s channel pair cb).2 = true := by
  simp [SubscriptionManager.unsubscribe, hact, hlt]

theorem unsubscribe_last_fields {s : ManagerState} {channel pair : String}
    (cb : Nat) {cbs : List Nat}
    (hact : alGet (mkKey channel pair) s.activeSubscriptions = some cbs)
    (hle : ¬ 1 < (alGet (mkKey channel pair) s.subscriptionCounts).getD 0)
    (hex : s.ws.socketExists = true) (hop : s.ws.socketOpen = true) :
    (SubscriptionManager.unsubscribe s channel pair cb).1.activeSubscriptions =
      alDel (mkKey channel pair)
        (alSet (mkKey channel pair) (setDelete cbs cb) s.activeSubscriptions) ∧
    (SubscriptionManager.unsubscribe s channel pair cb).1.subscriptionCounts =
      alDel (mkKey channel pair) s.subscriptionCounts ∧
    (SubscriptionManager.unsubscribe s channel pair cb).1.ws.sentMessages =
      s.ws.sentMessages ++ [WireMsg.unsub channel [pair]] ∧
    (SubscriptionManager.unsubscribe s channel pair cb).1.ws.socketExists = true ∧
    (SubscriptionManager.unsubscribe s channel pair cb).1.ws.socketOpen = true ∧
    (SubscriptionManager.unsubscribe s channel pair cb).2 = true := by
  obtain ⟨hoff1, hoff2, hoff3⟩ :=
    off_fields s.ws channel s.nextHandlerId
  simp [SubscriptionManager.unsubscribe, hact, hle,
    KrakenWebSocketService.unsubscribeChannel, KrakenWebSocketService.send,
    hoff1, hoff2, hoff3, hex, hop]

theorem subscribeAll_existing (channel pair : String) :
    ∀ (cs : List Nat) (s : ManagerState) (l : List Nat) (n : Nat),
      alGet (mkKey channel pair) s.activeSubscriptions = some l →
      alGet (mkKey channel pair) s.subscriptionCounts = some n →
      (∀ c ∈ cs, c ∉ l) → cs.Nodup →
      alGet (mkKey channel pair)
          ((subscribeAll s channel pair cs).activeSubscriptions) = some (l ++ cs) ∧
      alGet (mkKey channel pair)
          ((subscribeAll s channel pair cs).subscriptionCounts) =
        some (n + cs.length) ∧
      (subscribeAll s channel pair cs).ws = s.ws := by
  intro cs
  induction cs with
  | nil =>
    intro s l n ha hc _ _
    refine ⟨?_, ?_, rfl⟩
    · simpa [subscribeAll] using ha
    · simpa [subscribeAll] using hc
  | cons c cs ih =>
    intro s l n ha hc hfresh hnd
    have hc1 : c ∉ l := hfresh c (List.mem_cons_self c cs)
    have hadd : setAdd l c = l ++ [c] := by simp [setAdd, hc1]
    obtain ⟨e1, e2, -, -, -, -, e7, -⟩ :=
      subscribe_existing_fields c 25 1 ha
    have ha' : alGet (mkKey channel pair)
        ((SubscriptionManager.subscribe s channel pair c 25 1).1.activeSubscriptions) =
        some (l ++ [c]) := by
      rw [e1, alGet_alSet_self, hadd]
    have hgetd : (alGet (mkKey channel pair) s.subscriptionCounts).getD 0 = n := by
      rw [hc]
      rfl
    have hc' : alGet (mkKey channel pair)
        ((SubscriptionManager.subscribe s channel pair c 25 1).1.subscriptionCounts) =
        some (n + 1) := by
      rw [e2, alGet_alSet_self, hgetd]
    have hfresh' : ∀ x ∈ cs, x ∉ l ++ [c] := by
      intro x hx
      have hxl : x ∉ l := hfresh x (List.mem_cons_of_mem c hx)
      have hxc : x ≠ c := by
        intro hxc
        subst hxc
        exact (List.nodup_cons.mp hnd).1 hx
      simp [hxl, hxc]
    obtain ⟨r1, r2, r3⟩ := ih
      (SubscriptionManager.subscribe s channel pair c 25 1).1 (l ++ [c]) (n + 1)
      ha' hc' hfresh' (List.nodup_cons.mp hnd).2
    refine ⟨?_, ?_, ?_⟩
    · show alGet (mkKey channel pair)
        ((subscribeAll (SubscriptionManager.subscribe s channel pair c 25 1).1
          channel pair cs).activeSubscriptions) = _
      rw [r1]
      simp
    · show alGet (mkKey channel pair)
        ((subscribeAll (SubscriptionManager.subscribe s channel pair c 25 1).1
          channel pair cs).subscriptionCounts) = _
      rw [r2]
      congr 1
      simp
      omega
    · show (subscribeAll (SubscriptionManager.subscribe s channel pair c 25 1).1
          channel pair cs).ws = _
      rw [r3, e7]

theorem unsubscribeAll_decrements (channel pair : String) :
    ∀ (ds : List Nat) (s : ManagerState) (l rem : List Nat),
      alGet (mkKey channel pair) s.activeSubscriptions = some l →
      alGet (mkKey channel pair) s.subscriptionCounts = some l.length →
      l.Perm (ds ++ rem) → rem ≠ [] →
      ∃ l', alGet (mkKey channel pair)
            ((unsubscribeAll s channel pair ds).activeSubscriptions) = some l' ∧
        l'.Perm rem ∧
        alGet (mkKey channel pair)
            ((unsubscribeAll s channel pair ds).subscriptionCounts) =
          some l'.length ∧
        (unsubscribeAll s channel pair ds).ws = s.ws := by
  intro ds
  induction ds with
  | nil =>
    intro s l rem ha hc hperm hne
    exact ⟨l, ha, by simpa using hperm, hc, rfl⟩
  | cons d ds ih =>
    intro s l rem ha hc hperm hne
    have hd : d ∈ l := hperm.mem_iff.mpr (by simp)
    have hlen : l.length = ds.length + rem.length + 1 := by
      have hl := hperm.length_eq
      simp at hl
      omega
    have hrem : 0 < rem.length := List.length_pos.mpr hne
    have hlt : 1 < (alGet (mkKey channel pair) s.subscriptionCounts).getD 0 := by
      rw [hc]
      simp only [Option.getD_some]
      omega
    obtain ⟨e1, e2, e3, -⟩ := unsubscribe_decrement_fields d ha hlt
    have ha' : alGet (mkKey channel pair)
        ((SubscriptionManager.unsubscribe s channel pair d).1.activeSubscriptions) =
        some (l.erase d) := by
      rw [e1]
      exact alGet_alSet_self _ _ _
    have hc' : alGet (mkKey channel pair)
        ((SubscriptionManager.unsubscribe s channel pair d).1.subscriptionCounts) =
        some (l.erase d).length := by
      rw [e2, alGet_alSet_self, hc]
      simp only [Option.getD_some]
      rw [List.length_erase_of_mem hd]
    have hperm' : (l.erase d).Perm (ds ++ rem) := by
      have h1 := hperm.erase d
      simpa [List.erase_cons_head] using h1
    obtain ⟨l', p1, p2, p3, p4⟩ := ih
      (SubscriptionManager.unsubscribe s channel pair d).1 (l.erase d) rem
      ha' hc' hperm' hne
    refine ⟨l', p1, p2, p3, ?_⟩
    show (unsubscribeAll (SubscriptionManager.unsubscribe s channel pair d).1
        channel pair ds).ws = s.ws
    rw [p4, e3]

/-- C1: for consumers subscribing through the manager to one key with
distinct callbacks, the subscription phase sends exactly one upstream
subscribe frame and no unsubscribe frame; unsubscribing all but one of them
in any order sends nothing upstream; unsubscribing the last one sends exactly
one upstream unsubscribe frame. -/
theorem c1_single_upstream_message_per_key (channel pair : String)
    (s0 : ManagerState) (c0 : Nat) (cs front : List Nat) (last : Nat)
    (hch : knownChannel channel = true)
    (hact : alGet (mkKey channel pair) s0.activeSubscriptions = none)
    (hex : s0.ws.socketExists = true) (hop : s0.ws.socketOpen = true)
    (hnd : (c0 :: cs).Nodup)
    (hperm : (front ++ [last]).Perm (c0 :: cs)) :
    (subscribeAll s0 channel pair (c0 :: cs)).ws.sentMessages =
      s0.ws.sentMessages ++ [subMsgFor channel pair 25 1] ∧
    ((subscribeAll s0 channel pair (c0 :: cs)).ws.sentMessages.drop
        s0.ws.sentMessages.length).countP isSubscribeMsg = 1 ∧
    ((subscribeAll s0 channel pair (c0 :: cs)).ws.sentMessages.drop
        s0.ws.sentMessages.length).countP isUnsubscribeMsg = 0 ∧
    (unsubscribeAll (subscribeAll s0 channel pair (c0 :: cs)) channel pair
        front).ws.sentMessages =
      (subscribeAll s0 channel pair (c0 :: cs)).ws.sentMessages ∧
    (SubscriptionManager.unsubscribe
        (unsubscribeAll (subscribeAll s0 channel pair (c0 :: cs)) channel pair front)
        channel pair last).1.ws.sentMessages =
      (unsubscribeAll (subscribeAll s0 channel pair (c0 :: cs)) channel pair
          front).ws.sentMessages ++ [WireMsg.unsub channel [pair]] := by
  obtain ⟨f1, f2, f3, f4, f5, -⟩ :=
    subscribe_fresh_full c0 25 1 hact hch hex hop
  have ha1 : alGet (mkKey channel pair)
      ((SubscriptionManager.subscribe s0 channel pair c0 25 1).1.activeSubscriptions) =
      some [c0] := by
    rw [f1]
    exact alGet_alSet_self _ _ _
  have hc1 : alGet (mkKey channel pair)
      ((SubscriptionManager.subscribe s0 channel pair c0 25 1).1.subscriptionCounts) =
      some 1 := by
    rw [f2]
    exact alGet_alSet_self _ _ _
  have hfresh : ∀ c ∈ cs, c ∉ [c0] := by
    intro c hcmem
    have hne : c ≠ c0 := by
      intro hceq
      subst hceq
      exact (List.nodup_cons.mp hnd).1 hcmem
    simp [hne]
  obtain ⟨r1, r2, r3⟩ := subscribeAll_existing channel pair cs
    (SubscriptionManager.subscribe s0 channel pair c0 25 1).1 [c0] 1
    ha1 hc1 hfresh (List.nodup_cons.mp hnd).2
  have hmsg1 : (subscribeAll s0 channel pair (c0 :: cs)).ws.sentMessages =
      s0.ws.sentMessages ++ [subMsgFor channel pair 25 1] := by
    show (subscribeAll (SubscriptionManager.subscribe s0 channel pair c0 25 1).1
        channel pair cs).ws.sentMessages = _
    rw [r3, f3]
  have hactive1 : alGet (mkKey channel pair)
      ((subscribeAll s0 channel pair (c0 :: cs)).activeSubscriptions) =
      some (c0 :: cs) := r1
  have hcount1 : alGet (mkKey channel pair)
      ((subscribeAll s0 channel pair (c0 :: cs)).subscriptionCounts) =
      some (c0 :: cs).length := by
    have : 1 + cs.length = (c0 :: cs).length := by
      simp [Nat.add_comm]
    exact this ▸ r2
  obtain ⟨l', p1, p2, p3, p4⟩ := unsubscribeAll_decrements channel pair front
    (subscribeAll s0 channel pair (c0 :: cs)) (c0 :: cs) [last]
    hactive1 hcount1 hperm.symm (by simp)
  have hl' : l' = [last] := List.perm_singleton.mp p2
  subst hl'
  have hmsg2 : (unsubscribeAll (subscribeAll s0 channel pair (c0 :: cs)) channel pair
      front).ws.sentMessages =
      (subscribeAll s0 channel pair (c0 :: cs)).ws.sentMessages := by
    rw [p4]
  have hex2 : (unsubscribeAll (subscribeAll s0 channel pair (c0 :: cs)) channel pair
      front).ws.socketExists = true := by
    rw [p4]
    show (subscribeAll (SubscriptionManager.subscribe s0 channel pair c0 25 1).1
        channel pair cs).ws.socketExists = true
    rw [r3, f4]
  have hop2 : (unsubscribeAll (subscribeAll s0 channel pair (c0 :: cs)) channel pair
      front).ws.socketOpen = true := by
    rw [p4]
    show (subscribeAll (SubscriptionManager.subscribe s0 channel pair c0 25 1).1
        channel pair cs).ws.socketOpen = true
    rw [r3, f5]
  have hle : ¬ 1 < (alGet (mkKey channel pair)
      ((unsubscribeAll (subscribeAll s0 channel pair (c0 :: cs)) channel pair
        front).subscriptionCounts)).getD 0 := by
    rw [p3]
    simp
  obtain ⟨-, -, g3, -, -, -⟩ :=
    unsubscribe_last_fields last p1 hle hex2 hop2
  refine ⟨hmsg1, ?_, ?_, hmsg2, g3⟩
  · rw [hmsg1, List.drop_left]
    simp [isSubscribeMsg_subMsgFor]
  · rw [hmsg1, List.drop_left]
    have := isSubscribeMsg_subMsgFor channel pair 25 1
    cases hm : subMsgFor channel pair 25 1 with
    | sub a b c d => simp [isUnsubscribeMsg]
    | unsub a b =>
      rw [hm] at this
      exact absurd this (by simp [isSubscribeMsg])

/-- State after three distinct callbacks subscribe to the book channel. -/
def c1Phase1 : ManagerState := subscribeAll initMgr "book" "ETH/USD" [0, 1, 2]

/-- State after two of the three callbacks unsubscribe. -/
def c1Phase2 : ManagerState := unsubscribeAll c1Phase1 "book" "ETH/USD" [2, 0]

/-- State after the last callback unsubscribes. -/
def c1Phase3 : ManagerState :=
  (SubscriptionManager.unsubscribe c1Phase2 "book" "ETH/USD" 1).1

/-- Witness for C1 with three distinct callbacks: one subscribe frame in
phase one, none in phase two, one unsubscribe frame in phase three. -/
theorem c1_witness :
    c1Phase1.ws.sentMessages = [subMsgFor "book" "ETH/USD" 25 1] ∧
    c1Phase2.ws.sentMessages = c1Phase1.ws.sentMessages ∧
    c1Phase3.ws.sentMessages =
      c1Phase2.ws.sentMessages ++ [WireMsg.unsub "book" ["ETH/USD"]] := by
  obtain ⟨h1, -, -, h4, h5⟩ := c1_single_upstream_message_per_key "book" "ETH/USD"
    initMgr 0 [1, 2] [2, 0] 1
    (by decide) (by decide) (by decide) (by decide) (by decide) (by decide)
  refine ⟨?_, h4, h5⟩
  simpa [initMgr, openWS] using h1

/-- A stored subscription key is well formed when it is the colon join of a
known channel and a pair recovered unchanged by the split, the pair being
slash formed when the channel is ohlc. -/
def resubKeyOk (e : String × Nat) : Prop :=
  ∃ c p, e.1 = c ++ ":" ++ p ∧ splitKey e.1 = (c, p) ∧
    (c = "ticker" ∨ c = "book" ∨ c = "ohlc" ∨ c = "trade") ∧
    (c = "ohlc" → formatOhlcPair p = p)

/-- The replay frame produced for one stored key. -/
def resubMsgOf (c p : String) : WireMsg :=
  if c = "ticker" then WireMsg.sub "ticker" [p] none none
  else if c = "book" then WireMsg.sub "book" [p] (some 10) none
  else if c = "ohlc" then WireMsg.sub "ohlc" [p] none (some 1)
  else WireMsg.sub "trade" [p] none none

/-- Recognize a subscribe frame for one channel and single pair. -/
def isSubFor (c p : String) : WireMsg → Bool
  | WireMsg.sub c' ps _ _ => decide (c' = c) && decide (ps = [p])
  | WireMsg.unsub _ _ => false

theorem resubChannel_msg {st : ConnState} {c p : String}
    (hex : st.socketExists = true) (hop : st.socketOpen = true)
    (hc : c = "ticker" ∨ c = "book" ∨ c = "ohlc" ∨ c = "trade")
    (hfmt : c = "ohlc" → formatOhlcPair p = p) :
    KrakenWebSocketService.resubChannel st c p =
      { st with sentMessages := st.sentMessages ++ [resubMsgOf c p] } := by
  rcases hc with rfl | rfl | rfl | rfl
  · simp [KrakenWebSocketService.resubChannel, KrakenWebSocketService.subscribeTicker,
      KrakenWebSocketService.subscribeGeneric, KrakenWebSocketService.send,
      hex, hop, resubMsgOf]
  · simp [KrakenWebSocketService.resubChannel, KrakenWebSocketService.subscribeOrderBook,
      KrakenWebSocketService.subscribeGeneric, KrakenWebSocketService.send,
      hex, hop, resubMsgOf]
  · simp [KrakenWebSocketService.resubChannel, KrakenWebSocketService.subscribeOHLC,
      KrakenWebSocketService.subscribeGeneric, KrakenWebSocketService.send,
      hex, hop, resubMsgOf, hfmt rfl]
  · simp [KrakenWebSocketService.resubChannel, KrakenWebSocketService.subscribeTrades,
      KrakenWebSocketService.subscribeGeneric, KrakenWebSocketService.send,
      hex, hop, resubMsgOf]

theorem resub_foldl :
    ∀ (subs : List (String × Nat)) (st : ConnState),
      st.socketExists = true → st.socketOpen = true →
      (∀ e ∈ subs, resubKeyOk e) →
      (subs.foldl
          (fun st e =>
            KrakenWebSocketService.resubChannel st (splitKey e.1).1 (splitKey e.1).2)
          st).sentMessages =
        st.sentMessages ++
          subs.map (fun e => resubMsgOf (splitKey e.1).1 (splitKey e.1).2) := by
  intro subs
  induction subs with
  | nil =>
    intro st _ _ _
    simp
  | cons e rest ih =>
    intro st hex hop hkeys
    obtain ⟨c, p, hkey, hsplit, hc4, hfmt⟩ := hkeys e (List.mem_cons_self e rest)
    have hstep : KrakenWebSocketService.resubChannel st (splitKey e.1).1 (splitKey e.1).2 =
        { st with sentMessages :=
            st.sentMessages ++ [resubMsgOf (splitKey e.1).1 (splitKey e.1).2] } := by
      rw [hsplit]
      exact resubChannel_msg hex hop hc4 hfmt
    have hrest : ∀ e' ∈ rest, resubKeyOk e' :=
      fun e' h' => hkeys e' (List.mem_cons_of_mem e h')
    rw [List.foldl_cons, hstep,
      ih { st with sentMessages :=
            st.sentMessages ++ [resubMsgOf (splitKey e.1).1 (splitKey e.1).2] }
        hex hop hrest]
    simp

theorem countP_eq_one_of_nodup_mem {l : List String} {key : String}
    (hnd : l.Nodup) (hmem : key ∈ l) :
    l.countP (fun x => decide (x = key)) = 1 := by
  induction l with
  | nil => simp at hmem
  | cons a l ih =>
    rw [List.countP_cons]
    rcases List.mem_cons.mp hmem with rfl | hmem'
    · have hnotin := (List.nodup_cons.mp hnd).1
      have hz : l.countP (fun x => decide (x = key)) = 0 :=
        List.countP_eq_zero.mpr (fun b hb hba => hnotin ((of_decide_eq_true hba) ▸ hb))
      simp [hz]
    · have hne : ¬ a = key := by
        intro hEq
        exact (List.nodup_cons.mp hnd).1 (hEq ▸ hmem')
      have h1 := ih (List.nodup_cons.mp hnd).2 hmem'
      simp [h1, hne]

theorem isSubFor_resubMsgOf {c' p' c p : String}
    (hc : c' = "ticker" ∨ c' = "book" ∨ c' = "ohlc" ∨ c' = "trade") :
    (isSubFor c p (resubMsgOf c' p') = true) ↔ (c' = c ∧ p' = p) := by
  rcases hc with rfl | rfl | rfl | rfl <;>
    simp [resubMsgOf, isSubFor]

/-- C6: after a successful reconnect the replay walks the stored subscription
keys and sends exactly one subscribe frame per previously active key, built
only from the stored channel and pair of that key, and no other frames. -/
theorem c6_resubscribe_replays_each_key (s : ConnState)
    (hex : s.socketExists = true) (hop : s.socketOpen = true)
    (hnd : (s.subscriptions.map Prod.fst).Nodup)
    (hkeys : ∀ e ∈ s.subscriptions, resubKeyOk e) :
    ((KrakenWebSocketService.resubscribe s).sentMessages.drop
        s.sentMessages.length).length = s.subscriptions.length ∧
    (∀ c p, (c ++ ":" ++ p) ∈ s.subscriptions.map Prod.fst →
      splitKey (c ++ ":" ++ p) = (c, p) →
      ((KrakenWebSocketService.resubscribe s).sentMessages.drop
          s.sentMessages.length).countP (isSubFor c p) = 1) ∧
    (∀ m ∈ (KrakenWebSocketService.resubscribe s).sentMessages.drop
        s.sentMessages.length,
      ∃ e ∈ s.subscriptions, m = resubMsgOf (splitKey e.1).1 (splitKey e.1).2) := by
  have hseg : (KrakenWebSocketService.resubscribe s).sentMessages =
      s.sentMessages ++
        s.subscriptions.map (fun e => resubMsgOf (splitKey e.1).1 (splitKey e.1).2) := by
    unfold KrakenWebSocketService.resubscribe
    exact resub_foldl s.subscriptions { s with subscriptions := [] } hex hop hkeys
  rw [hseg, List.drop_left]
  refine ⟨by simp, ?_, ?_⟩
  · intro c p hmem hsplit
    rw [List.countP_map]
    have hcong : ∀ e ∈ s.subscriptions,
        ((isSubFor c p ∘ fun e => resubMsgOf (splitKey e.1).1 (splitKey e.1).2) e = true) ↔
        ((fun e : String × Nat => decide (e.1 = c ++ ":" ++ p)) e = true) := by
      intro e he
      obtain ⟨ce, pe, hkey, hsp, hc4, -⟩ := hkeys e he
      simp only [Function.comp, hsp]
      rw [isSubFor_resubMsgOf hc4]
      constructor
      · rintro ⟨rfl, rfl⟩
        simp [hkey]
      · intro hdec
        have hEq : e.1 = c ++ ":" ++ p := of_decide_eq_true hdec
        have h1 : (ce, pe) = (c, p) := by
          rw [← hsp, hEq, hsplit]
        exact ⟨congrArg Prod.fst h1, congrArg Prod.snd h1⟩
    rw [List.countP_congr hcong]
    have : (s.subscriptions.map Prod.fst).countP
        (fun x => decide (x = c ++ ":" ++ p)) = 1 :=
      countP_eq_one_of_nodup_mem hnd hmem
    rw [List.countP_map] at this
    exact this
  · intro m hm
    obtain ⟨e, he, hEq⟩ := List.mem_map.mp hm
    exact ⟨e, he, hEq.symm⟩

/-- A connected service holding the two stored keys of the claim example. -/
def c6DemoWS : ConnState :=
  { openWS with subscriptions := [("book:ETH/USD", 42), ("ticker:XBT/USD", 7)] }

/-- Witness for C6: with active keys book ETH/USD and ticker XBT/USD, the
replay sends exactly two frames, one subscribe per key. -/
theorem c6_witness :
    ((KrakenWebSocketService.resubscribe c6DemoWS).sentMessages.drop
        c6DemoWS.sentMessages.length).length = 2 ∧
    ((KrakenWebSocketService.resubscribe c6DemoWS).sentMessages.drop
        c6DemoWS.sentMessages.length).countP (isSubFor "book" "ETH/USD") = 1 ∧
    ((KrakenWebSocketService.resubscribe c6DemoWS).sentMessages.drop
        c6DemoWS.sentMessages.length).countP (isSubFor "ticker" "XBT/USD") = 1 := by
  have hkeys : ∀ e ∈ c6DemoWS.subscriptions, resubKeyOk e := by
    intro e he
    rcases List.mem_cons.mp he with rfl | he'
    · exact ⟨"book", "ETH/USD", by decide, by decide, by decide, by decide⟩
    rcases List.mem_cons.mp he' with rfl | he''
    · exact ⟨"ticker", "XBT/USD", by decide, by decide, by decide, by decide⟩
    · simp at he''
  obtain ⟨h1, h2, -⟩ :=
    c6_resubscribe_replays_each_key c6DemoWS rfl rfl (by decide) hkeys
  exact ⟨h1, h2 "book" "ETH/USD" (by decide) (by decide),
    h2 "ticker" "XBT/USD" (by decide) (by decide)⟩

/-- The prices of a side, in order. -/
def pricesOf (l : List OrderBookEntry) : List ℚ :=
  l.map OrderBookEntry.price

/-- The sum of the amounts of a side. -/
def amountSum (l : List OrderBookEntry) : ℚ :=
  (l.map OrderBookEntry.amount).sum

/-- The cumulative total carried by the last level equals the amount sum of
the side. -/
def lastTotalIsSum (side : List OrderBookEntry) : Prop :=
  ∀ e, side.getLast? = some e → e.total = amountSum side

/-- The invariant of C4 on one book: asks strictly ascending by price, bids
strictly descending, unique prices on each side, and the last cumulative
total equal to the amount sum of its side. -/
def bookInvariant (b : Book) : Prop :=
  (pricesOf b.asks).Pairwise (· < ·) ∧
  (pricesOf b.bids).Pairwise (· > ·) ∧
  (pricesOf b.asks).Nodup ∧
  (pricesOf b.bids).Nodup ∧
  lastTotalIsSum b.asks ∧
  lastTotalIsSum b.bids

theorem pricesOf_withTotals (acc : ℚ) (l : List OrderBookEntry) :
    pricesOf (withTotals acc l) = pricesOf l := by
  induction l generalizing acc with
  | nil => rfl
  | cons e rest ih =>
    show OrderBookEntry.price _ :: pricesOf (withTotals (acc + e.amount) rest) = _
    rw [ih (acc + e.amount)]
    rfl

theorem amounts_withTotals (acc : ℚ) (l : List OrderBookEntry) :
    (withTotals acc l).map OrderBookEntry.amount = l.map OrderBookEntry.amount := by
  induction l generalizing acc with
  | nil => rfl
  | cons e rest ih => simp [withTotals, ih]

theorem withTotals_getLast (l : List OrderBookEntry) :
    ∀ (acc : ℚ) (e : OrderBookEntry), (withTotals acc l).getLast? = some e →
      e.total = acc + amountSum l := by
  induction l with
  | nil =>
    intro acc e h
    simp [withTotals] at h
  | cons x xs ih =>
    intro acc e h
    cases xs with
    | nil =>
      simp [withTotals] at h
      rw [← h]
      simp [amountSum]
    | cons y ys =>
      have h2 : (withTotals (acc + x.amount) (y :: ys)).getLast? = some e := by
        have hexp : withTotals acc (x :: y :: ys) =
            { x with total := acc + x.amount } ::
              withTotals (acc + x.amount) (y :: ys) := rfl
        rw [hexp] at h
        rw [show withTotals (acc + x.amount) (y :: ys) =
            { y with total := acc + x.amount + y.amount } ::
              withTotals (acc + x.amount + y.amount) ys from rfl] at h ⊢
        rwa [List.getLast?_cons_cons] at h
      have htotal := ih (acc + x.amount) e h2
      rw [htotal]
      simp [amountSum]
      ring

theorem removeLevel_sublist (p : ℚ) (l : List OrderBookEntry) :
    (removeLevel p l).Sublist l := by
  induction l with
  | nil => simp [removeLevel]
  | cons e rest ih =>
    by_cases h : e.price = p
    · simp only [removeLevel, if_pos h]
      exact List.sublist_cons_self e rest
    · simp only [removeLevel, if_neg h]
      exact ih.cons₂ e

theorem pricesOf_setAmountAtLevel (p amt : ℚ) (l : List OrderBookEntry) :
    pricesOf (setAmountAtLevel p amt l) = pricesOf l := by
  induction l with
  | nil => rfl
  | cons e rest ih =>
    by_cases h : e.price = p
    · simp only [setAmountAtLevel, if_pos h]
      rfl
    · simp only [setAmountAtLevel, if_neg h]
      show e.price :: pricesOf (setAmountAtLevel p amt rest) = _
      rw [ih]
      rfl

theorem pricesOf_replaceLevel (e : OrderBookEntry) (l : List OrderBookEntry) :
    pricesOf (replaceLevel e l) = pricesOf l := by
  induction l with
  | nil => rfl
  | cons x rest ih =>
    by_cases h : x.price = e.price
    · simp only [replaceLevel, if_pos h]
      show e.price :: pricesOf rest = x.price :: pricesOf rest
      rw [h]
    · simp only [replaceLevel, if_neg h]
      show x.price :: pricesOf (replaceLevel e rest) = x.price :: pricesOf rest
      rw [ih]

theorem hasLevel_iff (p : ℚ) (l : List OrderBookEntry) :
    hasLevel p l = true ↔ p ∈ pricesOf l := by
  simp [hasLevel, pricesOf, List.any_eq_true, List.mem_map]

theorem uniq_applyUpdateRow {side : List OrderBookEntry} {row : ℚ × ℚ}
    (h : (pricesOf side).Nodup) : (pricesOf (applyUpdateRow side row)).Nodup := by
  unfold applyUpdateRow
  by_cases h0 : row.2 = 0
  · simp only [if_pos h0]
    exact List.Nodup.sublist ((removeLevel_sublist row.1 side).map _) h
  · simp only [if_neg h0]
    by_cases h1 : hasLevel row.1 side
    · simp only [if_pos h1, pricesOf_setAmountAtLevel]
      exact h
    · simp only [if_neg h1]
      have hnot : row.1 ∉ pricesOf side := fun hmem =>
        h1 ((hasLevel_iff row.1 side).mpr hmem)
      show (pricesOf (side ++ [_])).Nodup
      rw [show pricesOf (side ++ [{ price := row.1, amount := row.2, total := 0 }]) =
          pricesOf side ++ [row.1] by simp [pricesOf]]
      simp [List.nodup_append, h, hnot]

theorem uniq_mergeRow {side : List OrderBookEntry} {e : OrderBookEntry}
    (h : (pricesOf side).Nodup) : (pricesOf (mergeRow side e)).Nodup := by
  unfold mergeRow
  by_cases h0 : e.amount = 0
  · simp only [if_pos h0]
    exact List.Nodup.sublist ((removeLevel_sublist e.price side).map _) h
  · simp only [if_neg h0]
    by_cases h1 : hasLevel e.price side
    · simp only [if_pos h1, pricesOf_replaceLevel]
      exact h
    · simp only [if_neg h1]
      have hnot : e.price ∉ pricesOf side := fun hmem =>
        h1 ((hasLevel_iff e.price side).mpr hmem)
      rw [show pricesOf (side ++ [e]) = pricesOf side ++ [e.price] by simp [pricesOf]]
      simp [List.nodup_append, h, hnot]

theorem uniq_foldl_mergeRow {side : List OrderBookEntry}
    (h : (pricesOf side).Nodup) (rows : List OrderBookEntry) :
    (pricesOf (rows.foldl mergeRow side)).Nodup := by
  induction rows generalizing side with
  | nil => exact h
  | cons r rest ih => exact ih (uniq_mergeRow h)

theorem finalize_side_nodup {l : List OrderBookEntry}
    (h : (pricesOf l).Nodup) :
    (pricesOf (withTotals 0 (sortAsks l))).Nodup ∧
    (pricesOf (withTotals 0 (sortBids l))).Nodup := by
  rw [pricesOf_withTotals, pricesOf_withTotals]
  constructor
  · exact (((List.perm_insertionSort askLe l).map _).nodup_iff).mpr h
  · exact (((List.perm_insertionSort bidLe l).map _).nodup_iff).mpr h

theorem finalize_asks_ascending {l : List OrderBookEntry}
    (h : (pricesOf l).Nodup) :
    (pricesOf (withTotals 0 (sortAsks l))).Pairwise (· < ·) := by
  rw [pricesOf_withTotals]
  have hnd : (pricesOf (sortAsks l)).Nodup :=
    (((List.perm_insertionSort askLe l).map _).nodup_iff).mpr h
  have hsorted : List.Sorted askLe (sortAsks l) :=
    List.sorted_insertionSort askLe l
  have hle : (pricesOf (sortAsks l)).Pairwise (· ≤ ·) :=
    hsorted.map OrderBookEntry.price (fun _ _ hab => hab)
  exact ((hle.and (List.Pairwise.imp (fun hne => hne) hnd)).imp
    (fun hab => lt_of_le_of_ne hab.1 hab.2))

theorem finalize_bids_descending {l : List OrderBookEntry}
    (h : (pricesOf l).Nodup) :
    (pricesOf (withTotals 0 (sortBids l))).Pairwise (· > ·) := by
  rw [pricesOf_withTotals]
  have hnd : (pricesOf (sortBids l)).Nodup :=
    (((List.perm_insertionSort bidLe l).map _).nodup_iff).mpr h
  have hsorted : List.Sorted bidLe (sortBids l) :=
    List.sorted_insertionSort bidLe l
  have hge : (pricesOf (sortBids l)).Pairwise (fun a b => b ≤ a) :=
    hsorted.map OrderBookEntry.price (fun _ _ hab => hab)
  exact ((hge.and (List.Pairwise.imp (fun hne => hne) hnd)).imp
    (fun hab => lt_of_le_of_ne hab.1 (Ne.symm hab.2)))

theorem finalize_lastTotal (l : List OrderBookEntry) :
    lastTotalIsSum (withTotals 0 l) := by
  intro e h
  have := withTotals_getLast l 0 e h
  rw [this]
  simp [amountSum, amounts_withTotals]

theorem applyBookMessage_invariant (b : Book) (m : BookMessage)
    (ha : (pricesOf b.asks).Nodup) (hb : (pricesOf b.bids).Nodup) :
    bookInvariant (applyBookMessage b m) := by
  have hua : (pricesOf ((formatOrderBookData m).1.foldl mergeRow b.asks)).Nodup :=
    uniq_foldl_mergeRow ha _
  have hub : (pricesOf ((formatOrderBookData m).2.foldl mergeRow b.bids)).Nodup :=
    uniq_foldl_mergeRow hb _
  refine ⟨?_, ?_, ?_, ?_, ?_, ?_⟩
  · exact finalize_asks_ascending hua
  · exact finalize_bids_descending hub
  · exact (finalize_side_nodup hua).1
  · exact (finalize_side_nodup hub).2
  · exact finalize_lastTotal _
  · exact finalize_lastTotal _

/-- C4: after any sequence of snapshot and delta frame applications starting
from the empty book, the ask side is strictly ascending by price, the bid
side strictly descending, prices are unique on each side, and the cumulative
total of the last level of each side equals the amount sum of that side. -/
theorem c4_book_invariants (msgs : List BookMessage) :
    bookInvariant (msgs.foldl applyBookMessage emptyBook) := by
  suffices h : ∀ (ms : List BookMessage) (b : Book), bookInvariant b →
      bookInvariant (ms.foldl applyBookMessage b) by
    refine h msgs emptyBook ?_
    refine ⟨?_, ?_, ?_, ?_, ?_, ?_⟩ <;>
      simp [emptyBook, pricesOf, lastTotalIsSum]
  intro ms
  induction ms with
  | nil => exact fun b hb => hb
  | cons m rest ih =>
    intro b hb
    exact ih _ (applyBookMessage_invariant b m hb.2.2.1 hb.2.2.2.1)

/-- A book holding one ask at price 100 and one bid at price 99, obtained by
applying the snapshot frame of the claim example. -/
def c5Book0 : Book :=
  applyBookMessage emptyBook
    { asSnapshot := some [(100, 1)], bsSnapshot := some [(99, 2)]
    , aUpdates := none, bUpdates := none }

/-- The delta frame deleting the ask level at price 100. -/
def c5Delta : BookMessage :=
  { asSnapshot := none, bsSnapshot := none
  , aUpdates := some [(100, 0)], bUpdates := none }

/-- C5 failing input: the zero-amount delta for the present price 100 is
consumed by formatOrderBookData against its own fresh empty array, so the
formatted output is empty, the merge never sees an amount-zero entry, and the
ask level at price 100 survives in the book unchanged. -/
theorem c5_zero_amount_delete_is_lost :
    hasLevel 100 c5Book0.asks = true ∧
    (formatOrderBookData c5Delta).1 = [] ∧
    (applyBookMessage c5Book0 c5Delta).asks = c5Book0.asks ∧
    hasLevel 100 (applyBookMessage c5Book0 c5Delta).asks = true := by
  norm_num [c5Book0, c5Delta, applyBookMessage, emptyBook, formatOrderBookData,
    snapshotSide, sortAsks, sortBids, List.insertionSort, List.orderedInsert,
    withTotals, mergeRow, hasLevel, removeLevel, replaceLevel, applyUpdateRow,
    askLe, bidLe]
